import Mathlib

set_option maxHeartbeats 1600000

/-
  Shallow embedding of the scheduling core of src/bot.py.

  Time is represented by an `Instant`: a weekday index (0 = Monday), a local
  time of day, a calendar date string, and an absolute second count used for
  age arithmetic and for debounce tokens.  The Python code uses the current
  ISO timestamp as a debounce token; here a token is the absolute second of
  the arming step, which is faithful because tokens are compared only for
  equality and distinct steps happen at distinct instants.

  The asyncio runtime is modelled by an explicit event trace: `inbound`
  events run the message handler, `commandQuick` runs the /lt-style handler,
  `commandOther` runs the remaining authorized commands (which do not touch
  the scheduler), and `fire` resumes a delayed `_buffer_then_send` task.  A
  created, uncancelled task resumes exactly FLOOD_BUFFER_SECONDS after its
  arming, and each task resumes at most once; both facts are part of the
  runtime model encoded in `stepFire`.  The decision body of
  `_buffer_then_send` is translated statement by statement in
  `buffer_then_send`.
-/

namespace AisGenie

/-- Association list lookup, modelling a Python dict read. -/
def lookupA {α β : Type} [DecidableEq α] : List (α × β) → α → Option β
  | [], _ => none
  | (k, v) :: rest, a => if k = a then some v else lookupA rest a

/-- Association list deletion, modelling a Python dict pop. -/
def eraseA {α β : Type} [DecidableEq α] : List (α × β) → α → List (α × β)
  | [], _ => []
  | p :: rest, a => if p.1 = a then eraseA rest a else p :: eraseA rest a

/-- Association list assignment, modelling a Python dict write. -/
def insertA {α β : Type} [DecidableEq α] (l : List (α × β)) (a : α) (b : β) : List (α × β) :=
  (a, b) :: eraseA l a

/-- Local time of day, mirroring datetime.time components. -/
structure Tod where
  hour : Nat
  minute : Nat
  sec : Nat
  deriving DecidableEq, Repr

/-- Seconds since local midnight; datetime.time comparisons agree with it. -/
def Tod.toSec (t : Tod) : Nat := t.hour * 3600 + t.minute * 60 + t.sec

/-- Boolean order on times of day. -/
def todLe (a b : Tod) : Bool := decide (a.toSec ≤ b.toSec)

/-- Boolean strict order on times of day. -/
def todLt (a b : Tod) : Bool := decide (a.toSec < b.toSec)

/-- A localized instant: weekday (0 = Monday), time of day, date string in
the strftime format `%Y-%m-%d`, and absolute seconds used for arithmetic. -/
structure Instant where
  weekday : Nat
  tod : Tod
  dateStr : String
  abs : Nat
  deriving DecidableEq, Repr

-- Office hours configuration constants from bot.py.
def WEEKDAY_START : Tod := ⟨9, 0, 0⟩
def WEEKDAY_END : Tod := ⟨17, 0, 0⟩
def WEEKDAY_CUTOFF : Tod := ⟨16, 30, 0⟩
def LAST_CALL_TIME : Tod := ⟨16, 0, 0⟩
def LUNCH_START : Tod := ⟨12, 30, 0⟩
def LUNCH_END : Tod := ⟨13, 30, 0⟩

/-- FLOOD_BUFFER_SECONDS = 5 * 60. -/
def FLOOD_BUFFER_SECONDS : Nat := 5 * 60

/-- AFTER_HOURS_SUPPRESSION_WINDOW_HOURS = 2. -/
def AFTER_HOURS_SUPPRESSION_WINDOW_HOURS : Nat := 2

/-- AFTER_HOURS_MIN_SILENCE_FOR_SPIEL_HOURS = 1. -/
def AFTER_HOURS_MIN_SILENCE_FOR_SPIEL_HOURS : Nat := 1

/-- Telegram chat kinds relevant to the handler; `direct` stands for the
private chat type. -/
inductive ChatType where
  | direct
  | group
  | supergroup
  | channel
  deriving DecidableEq, Repr

/-- chat.type in (Chat.GROUP, Chat.SUPERGROUP). -/
def isGroupType : ChatType → Bool
  | .group => true
  | .supergroup => true
  | _ => false

/-- Debounce key: (chat_id, period) with period one of AM, PM, WE, LUNCH,
CUTOFF. -/
abbrev Key := String × String

/-- An asyncio task created by schedule_buffered, identified by its key and
its debounce token (the absolute second of its arming). -/
structure Task where
  key : Key
  token : Nat
  deriving DecidableEq, Repr

/-- Static configuration: team chat ids, command-only chat ids, preloaded
authorized user ids, and transport outcome oracles for the group send and
the broadcast send. -/
structure Config where
  aisTeamChatIds : List String
  silentGroupIds : List String
  preauth : List Int
  sendOk : Key → Nat → Bool
  sendOkBroadcast : String → Nat → Bool

/-- The process-wide mutable maps of bot.py, plus runtime bookkeeping for
tasks, send attempts, and successful dispatches. -/
structure BotState where
  teamUserIds : List Int
  knownGroupChats : List String
  lastChatActivity : List (String × String)
  closedSentAM : List (String × String)
  closedSentPM : List (String × String)
  lastAuthMsgAt : List (String × Instant)
  chatLastResponse : List (String × List (String × Nat))
  debounceToken : List (Key × Nat)
  pendingTask : List (Key × Nat)
  createdTasks : List Task
  cancelledTasks : List Task
  fired : List Task
  attempts : List (Key × Nat × Nat)
  dispatches : List (Key × Nat)
  deriving Repr

/-- Fresh process state: every map empty, team_user_ids preloaded from the
configured authorized ids. -/
def initState (cfg : Config) : BotState :=
  { teamUserIds := cfg.preauth
    knownGroupChats := []
    lastChatActivity := []
    closedSentAM := []
    closedSentPM := []
    lastAuthMsgAt := []
    chatLastResponse := []
    debounceToken := []
    pendingTask := []
    createdTasks := []
    cancelledTasks := []
    fired := []
    attempts := []
    dispatches := [] }

/-- is_weekend: weekday() >= 5. -/
def is_weekend (i : Instant) : Bool := decide (5 ≤ i.weekday)

/-- is_office_open: returns (open, before_cutoff); (false, false) on
weekends, else closed-interval tests against the configured bounds. -/
def is_office_open (i : Instant) : Bool × Bool :=
  if is_weekend i then (false, false)
  else (todLe WEEKDAY_START i.tod && todLe i.tod WEEKDAY_END,
        todLe i.tod WEEKDAY_CUTOFF)

/-- is_lunch_time: LUNCH_START <= t <= LUNCH_END. -/
def is_lunch_time (i : Instant) : Bool :=
  todLe LUNCH_START i.tod && todLe i.tod LUNCH_END

/-- is_authorized_user: membership in team_user_ids or the preloaded set. -/
def is_authorized_user (cfg : Config) (st : BotState) (uid : Int) : Bool :=
  decide (uid ∈ st.teamUserIds) || decide (uid ∈ cfg.preauth)

/-- maybe_record_team_member: a sender seen in a designated team chat is
added to team_user_ids. -/
def maybe_record_team_member (cfg : Config) (st : BotState) (c : String) (uid : Int) : BotState :=
  if decide (c ∈ cfg.aisTeamChatIds) then
    { st with teamUserIds :=
        if decide (uid ∈ st.teamUserIds) then st.teamUserIds else uid :: st.teamUserIds }
  else st

/-- already_sent: true when the stored last-send stamp for (chat, tag) is
less than window_sec old. -/
def already_sent (st : BotState) (c tag : String) (window_sec : Nat) (now : Nat) : Bool :=
  match lookupA st.chatLastResponse c with
  | none => false
  | some inner =>
    match lookupA inner tag with
    | none => false
    | some w => decide (now - w < window_sec)

/-- mark_sent: stamp (chat, tag) with the current time. -/
def mark_sent (st : BotState) (c tag : String) (now : Nat) : BotState :=
  let inner := (lookupA st.chatLastResponse c).getD []
  { st with chatLastResponse := insertA st.chatLastResponse c (insertA inner tag now) }

/-- set_last_auth_msg: record the instant of the last authorized message. -/
def set_last_auth_msg (st : BotState) (c : String) (i : Instant) : BotState :=
  { st with lastAuthMsgAt := insertA st.lastAuthMsgAt c i }

/-- last_auth_msg_age in seconds, none when no authorized message was
recorded for the chat. -/
def last_auth_msg_age (st : BotState) (c : String) (now : Nat) : Option Nat :=
  (lookupA st.lastAuthMsgAt c).map (fun ts => now - ts.abs)

/-- within_after_hours_suppression: outside business hours and within 2h of
the last authorized message. -/
def within_after_hours_suppression (st : BotState) (c : String) (i : Instant) : Bool :=
  if (is_office_open i).1 then false
  else
    match last_auth_msg_age st c i.abs with
    | none => false
    | some age => decide (age ≤ AFTER_HOURS_SUPPRESSION_WINDOW_HOURS * 3600)

/-- allow_after_hours_spiel: outside hours, allow when no staff stamp, when
age >= 2h, or when age >= 1h of silence. -/
def allow_after_hours_spiel (st : BotState) (c : String) (i : Instant) : Bool :=
  if (is_office_open i).1 then false
  else
    match last_auth_msg_age st c i.abs with
    | none => true
    | some age =>
      if decide (AFTER_HOURS_SUPPRESSION_WINDOW_HOURS * 3600 ≤ age) then true
      else decide (AFTER_HOURS_MIN_SILENCE_FOR_SPIEL_HOURS * 3600 ≤ age)

/-- The combined suppression test used by the AM, PM and WE branches:
within_after_hours_suppression(chat) and not allow_after_hours_spiel(chat). -/
def after_hours_gate (st : BotState) (c : String) (i : Instant) : Bool :=
  within_after_hours_suppression st c i && !(allow_after_hours_spiel st c i)

/-- The cutoff guard: an authorized message today at or before the cutoff
time suppresses the cutoff notice. -/
def auth_blocked_cutoff (st : BotState) (c : String) (i : Instant) : Bool :=
  match lookupA st.lastAuthMsgAt c with
  | none => false
  | some ts => decide (ts.dateStr = i.dateStr) && todLe ts.tod WEEKDAY_CUTOFF

/-- is_latest_token. -/
def is_latest_token (st : BotState) (c p : String) (token : Nat) : Bool :=
  lookupA st.debounceToken (c, p) = some token

/-- clear_debounce: the finally block, popping PENDING_TASK for the key. -/
def clear_debounce (st : BotState) (k : Key) : BotState :=
  { st with pendingTask := eraseA st.pendingTask k }

/-- set_debounce: store a fresh token (the current instant) for the key and
cancel any pending task for it that is not done. -/
def set_debounce (st : BotState) (c p : String) (now : Nat) : BotState :=
  let key : Key := (c, p)
  let st1 := { st with debounceToken := insertA st.debounceToken key now }
  match lookupA st1.pendingTask key with
  | some tid =>
    { st1 with
      pendingTask := eraseA st1.pendingTask key
      cancelledTasks :=
        if decide ((⟨key, tid⟩ : Task) ∈ st1.fired) then st1.cancelledTasks
        else ⟨key, tid⟩ :: st1.cancelledTasks }
  | none => st1

/-- schedule_buffered: refresh the debounce token and create the delayed
task that will fire FLOOD_BUFFER_SECONDS later. -/
def schedule_buffered (st : BotState) (c p : String) (i : Instant) : BotState :=
  let st1 := set_debounce st c p i.abs
  { st1 with
    pendingTask := insertA st1.pendingTask (c, p) i.abs
    createdTasks := ⟨(c, p), i.abs⟩ :: st1.createdTasks }

/-- One iteration of cancel_all_pending_for_chat: pop and cancel the pending
task for the key, then overwrite its token. -/
def cancel_one (st : BotState) (k : Key) (now : Nat) : BotState :=
  let st1 :=
    match lookupA st.pendingTask k with
    | some tid =>
      { st with
        pendingTask := eraseA st.pendingTask k
        cancelledTasks :=
          if decide ((⟨k, tid⟩ : Task) ∈ st.fired) then st.cancelledTasks
          else ⟨k, tid⟩ :: st.cancelledTasks }
    | none => st
  { st1 with debounceToken := insertA st1.debounceToken k now }

/-- cancel_all_pending_for_chat over the five periods. -/
def cancel_all_pending_for_chat (st : BotState) (c : String) (now : Nat) : BotState :=
  (["AM", "PM", "WE", "LUNCH", "CUTOFF"]).foldl (fun s p => cancel_one s (c, p) now) st

/-- One transport attempt: record the attempt, and on success record the
dispatch and run the post-send bookkeeping; on failure the exception skips
the bookkeeping. -/
def attempt_send (cfg : Config) (st : BotState) (k : Key) (tok : Nat) (i : Instant)
    (onOk : BotState → BotState) : BotState :=
  let st1 := { st with attempts := (k, tok, i.abs) :: st.attempts }
  if cfg.sendOk k i.abs then
    onOk { st1 with dispatches := (k, i.abs) :: st1.dispatches }
  else st1

/-- The AM branch of _buffer_then_send: window checks, once-per-day gate,
suppression gate, send, then the once-per-day mark. -/
def buffer_AM (cfg : Config) (st : BotState) (c : String) (tok : Nat) (i : Instant) : BotState :=
  if (is_office_open i).1 then st
  else if !(decide (c ∈ st.knownGroupChats)) then st
  else if lookupA st.closedSentAM c = some i.dateStr then st
  else if after_hours_gate st c i then st
  else attempt_send cfg st (c, "AM") tok i
    (fun s => { s with closedSentAM := insertA s.closedSentAM c i.dateStr })

/-- The PM branch of _buffer_then_send. -/
def buffer_PM (cfg : Config) (st : BotState) (c : String) (tok : Nat) (i : Instant) : BotState :=
  if (is_office_open i).1 then st
  else if !(decide (c ∈ st.knownGroupChats)) then st
  else if lookupA st.closedSentPM c = some i.dateStr then st
  else if after_hours_gate st c i then st
  else attempt_send cfg st (c, "PM") tok i
    (fun s => { s with closedSentPM := insertA s.closedSentPM c i.dateStr })

/-- The WE branch of _buffer_then_send. -/
def buffer_WE (cfg : Config) (st : BotState) (c : String) (tok : Nat) (i : Instant) : BotState :=
  if !(is_weekend i) then st
  else if (is_office_open i).1 then st
  else if !(decide (c ∈ st.knownGroupChats)) then st
  else if after_hours_gate st c i then st
  else if already_sent st c "weekend" 7200 i.abs then st
  else attempt_send cfg st (c, "WE") tok i (fun s => mark_sent s c "weekend" i.abs)

/-- The LUNCH branch of _buffer_then_send. -/
def buffer_LUNCH (cfg : Config) (st : BotState) (c : String) (tok : Nat) (i : Instant) : BotState :=
  if !(todLe LUNCH_START i.tod && todLe i.tod LUNCH_END) then st
  else if !(decide (c ∈ st.knownGroupChats)) then st
  else if already_sent st c "lunch" 7200 i.abs then st
  else attempt_send cfg st (c, "LUNCH") tok i (fun s => mark_sent s c "lunch" i.abs)

/-- The CUTOFF branch of _buffer_then_send. -/
def buffer_CUTOFF (cfg : Config) (st : BotState) (c : String) (tok : Nat) (i : Instant) : BotState :=
  if !((is_office_open i).1) || todLt i.tod WEEKDAY_CUTOFF || todLt WEEKDAY_END i.tod then st
  else if !(decide (c ∈ st.knownGroupChats)) then st
  else if auth_blocked_cutoff st c i then st
  else if already_sent st c "cutoff" 7200 i.abs then st
  else attempt_send cfg st (c, "CUTOFF") tok i (fun s => mark_sent s c "cutoff" i.abs)

/-- The decision body of _buffer_then_send after the sleep: token check
first, then the per-period window checks, then the send and its
bookkeeping. -/
def buffer_then_send (cfg : Config) (st : BotState) (c p : String) (tok : Nat)
    (i : Instant) : BotState :=
  if !(is_latest_token st c p tok) then st
  else if p = "AM" then buffer_AM cfg st c tok i
  else if p = "PM" then buffer_PM cfg st c tok i
  else if p = "WE" then buffer_WE cfg st c tok i
  else if p = "LUNCH" then buffer_LUNCH cfg st c tok i
  else if p = "CUTOFF" then buffer_CUTOFF cfg st c tok i
  else st

/-- The bookkeeping that message_handler performs before any branching:
register group chats, maybe promote the sender, stamp activity today. -/
def track_inbound (cfg : Config) (st : BotState) (c : String) (ct : ChatType)
    (uid : Int) (i : Instant) : BotState :=
  let st1 :=
    if isGroupType ct && !(decide (c ∈ st.knownGroupChats)) then
      { st with knownGroupChats := c :: st.knownGroupChats }
    else st
  let st2 := maybe_record_team_member cfg st1 c uid
  { st2 with lastChatActivity := insertA st2.lastChatActivity c i.dateStr }

/-- authorized_initiated_on_or_before_cutoff_today. -/
def authorized_initiated_on_or_before_cutoff_today (st : BotState) (c : String)
    (i : Instant) : Bool :=
  match lookupA st.lastAuthMsgAt c with
  | none => false
  | some ts => decide (ts.dateStr = i.dateStr) && todLe ts.tod WEEKDAY_CUTOFF

/-- message_handler for a text message. -/
def stepInbound (cfg : Config) (st : BotState) (c : String) (ct : ChatType)
    (uid : Int) (i : Instant) : BotState :=
  let st1 := track_inbound cfg st c ct uid i
  if decide (c ∈ cfg.silentGroupIds) then st1
  else if is_authorized_user cfg st1 uid then
    cancel_all_pending_for_chat (set_last_auth_msg st1 c i) c i.abs
  else if is_weekend i then
    (if isGroupType ct then schedule_buffered st1 c "WE" i else st1)
  else if is_lunch_time i then
    (if isGroupType ct then schedule_buffered st1 c "LUNCH" i else st1)
  else if (is_office_open i).1 then
    (if !((is_office_open i).2) then
      (if isGroupType ct && !(authorized_initiated_on_or_before_cutoff_today st1 c i) then
        schedule_buffered st1 c "CUTOFF" i
      else st1)
    else st1)
  else if isGroupType ct then
    (if todLe WEEKDAY_END i.tod then schedule_buffered st1 c "PM" i
     else if todLt i.tod WEEKDAY_START then schedule_buffered st1 c "AM" i
     else st1)
  else st1

/-- generic_command_handler for /lt /apd /mvr /sign /emails: an authorized
sender gets a quick reply, a staff timestamp, and every pending buffered
prompt for the chat cancelled. -/
def stepCommandQuick (cfg : Config) (st : BotState) (c : String) (uid : Int)
    (i : Instant) : BotState :=
  let st1 := maybe_record_team_member cfg st c uid
  if is_authorized_user cfg st1 uid then
    cancel_all_pending_for_chat (set_last_auth_msg st1 c i) c i.abs
  else st1

/-- Events delivered to the cooperative runtime. -/
inductive Ev where
  | inbound (chat : String) (ctype : ChatType) (userId : Int)
  | commandQuick (chat : String) (userId : Int)
  | commandOther (chat : String) (userId : Int)
  | fire (k : Key) (token : Nat)
  deriving DecidableEq, Repr

/-- A timed event. -/
structure TEv where
  inst : Instant
  ev : Ev
  deriving DecidableEq, Repr

/-- Resumption of a _buffer_then_send task.  Only a created, not yet
finished task runs; a cancelled one takes the CancelledError path (finally
block only); an uncancelled one runs its body exactly FLOOD_BUFFER_SECONDS
after its arming. -/
def stepFire (cfg : Config) (st : BotState) (k : Key) (tok : Nat) (i : Instant) : BotState :=
  if decide ((⟨k, tok⟩ : Task) ∈ st.createdTasks) && !(decide ((⟨k, tok⟩ : Task) ∈ st.fired)) then
    if decide ((⟨k, tok⟩ : Task) ∈ st.cancelledTasks) then
      clear_debounce { st with fired := ⟨k, tok⟩ :: st.fired } k
    else if decide (i.abs = tok + FLOOD_BUFFER_SECONDS) then
      let st1 := buffer_then_send cfg st k.1 k.2 tok i
      clear_debounce { st1 with fired := ⟨k, tok⟩ :: st1.fired } k
    else st
  else st

/-- One step of the runtime. -/
def step (cfg : Config) (st : BotState) (e : TEv) : BotState :=
  match e.ev with
  | .inbound c ct uid => stepInbound cfg st c ct uid e.inst
  | .commandQuick c uid => stepCommandQuick cfg st c uid e.inst
  | .commandOther c uid => maybe_record_team_member cfg st c uid
  | .fire k tok => stepFire cfg st k tok e.inst

/-- Processing a whole trace. -/
def run (cfg : Config) (st : BotState) (evs : List TEv) : BotState :=
  evs.foldl (step cfg) st

/-- One tick of last_call_scheduler: at the broadcast minute on a weekday,
attempt the last-call message for every chat active today that is not in
the command-only set, each attempt independent of the others. -/
def lastCallTick (cfg : Config) (st : BotState) (i : Instant) : List (String × Bool) :=
  if decide (i.weekday < 5) && decide (i.tod.hour = LAST_CALL_TIME.hour)
      && decide (i.tod.minute = LAST_CALL_TIME.minute) then
    let targets :=
      (st.lastChatActivity.filter
        (fun p => decide (p.2 = i.dateStr) && !(decide (p.1 ∈ cfg.silentGroupIds)))).map Prod.fst
    targets.map (fun c => (c, cfg.sendOkBroadcast c i.abs))
  else []

/-- The period that message_handler schedules for a non-authorized group
message when no staff timestamp is recorded for the chat, read off the
branch structure of the handler. -/
def routesTo (i : Instant) : Option String :=
  if is_weekend i then some "WE"
  else if is_lunch_time i then some "LUNCH"
  else if (is_office_open i).1 then
    (if !((is_office_open i).2) then some "CUTOFF" else none)
  else if todLe WEEKDAY_END i.tod then some "PM"
  else if todLt i.tod WEEKDAY_START then some "AM"
  else none

/-- Trace shape for a burst: the inbound events are exactly the given
qualifying arms, in order, interleaved with arbitrary task resumptions. -/
def burstOk (cfg : Config) (c P : String) : List (Instant × Int) → List TEv → Bool
  | [], [] => true
  | arms, ⟨_, .fire _ _⟩ :: evs => burstOk cfg c P arms evs
  | (i, uid) :: arms, ⟨j, .inbound c2 ct u2⟩ :: evs =>
    decide (j = i) && decide (c2 = c) && decide (u2 = uid) && isGroupType ct
      && !(decide (uid ∈ cfg.preauth)) && decide (routesTo i = some P)
      && burstOk cfg c P arms evs
  | _, _ => false

/-- Event times strictly increase along the trace, starting above the
given bound. -/
def timesOk : Nat → List TEv → Bool
  | _, [] => true
  | t, e :: rest => decide (t < e.inst.abs) && timesOk e.inst.abs rest

/-- Consecutive arms are within the flood buffer of each other, the first
one within the flood buffer of the given previous arm time when present. -/
def armChainOk : Option Nat → List (Instant × Int) → Bool
  | _, [] => true
  | lp, a :: rest =>
    (match lp with
     | none => true
     | some v => decide (a.1.abs < v + FLOOD_BUFFER_SECONDS)) && armChainOk (some a.1.abs) rest

/-- Time of the last arm, falling back to the given previous arm time. -/
def lastT : Option Nat → List (Instant × Int) → Option Nat
  | lp, [] => lp
  | _, a :: rest => lastT (some a.1.abs) rest

/-- Send attempts recorded for a given key and token. -/
def attemptsFor (st : BotState) (k : Key) (tok : Nat) : List (Key × Nat × Nat) :=
  st.attempts.filter (fun a => decide (a.1 = k) && decide (a.2.1 = tok))

/-- Dispatches recorded for a given chat. -/
def dispatchesFor (st : BotState) (c : String) : List (Key × Nat) :=
  st.dispatches.filter (fun d => decide (d.1.1 = c))

/-- True when the event is not a group-typed inbound message for the chat. -/
def noGroupInbound (c : String) (e : TEv) : Bool :=
  match e.ev with
  | .inbound c2 ct _ => !(decide (c2 = c) && isGroupType ct)
  | _ => true

/-- Lookup after erase at the erased key. -/
theorem lookupA_eraseA_self {α β : Type} [DecidableEq α] (l : List (α × β)) (a : α) :
    lookupA (eraseA l a) a = none := by
  induction l with
  | nil => rfl
  | cons p rest ih =>
    by_cases hp : p.1 = a
    · simp [eraseA, hp, ih]
    · simp [eraseA, lookupA, hp, ih]

/-- Lookup after erase at another key. -/
theorem lookupA_eraseA_ne {α β : Type} [DecidableEq α] (l : List (α × β)) (a a' : α)
    (h : a ≠ a') : lookupA (eraseA l a) a' = lookupA l a' := by
  induction l with
  | nil => rfl
  | cons p rest ih =>
    by_cases hp : p.1 = a
    · have hpa : ¬ p.1 = a' := by rw [hp]; exact h
      simp [eraseA, lookupA, hp, hpa, ih, h]
    · by_cases hq : p.1 = a'
      · simp [eraseA, lookupA, hp, hq, Ne.symm h]
      · simp [eraseA, lookupA, hp, hq, ih]

/-- Lookup after insert at the inserted key. -/
theorem lookupA_insertA_self {α β : Type} [DecidableEq α] (l : List (α × β)) (a : α) (b : β) :
    lookupA (insertA l a b) a = some b := by
  simp [insertA, lookupA]

/-- Lookup after insert at another key. -/
theorem lookupA_insertA_ne {α β : Type} [DecidableEq α] (l : List (α × β)) (a a' : α) (b : β)
    (h : a ≠ a') : lookupA (insertA l a b) a' = lookupA l a' := by
  simp [insertA, lookupA, h, lookupA_eraseA_ne l a a' h]

/-- Lookup after insert, both cases at once. -/
theorem lookupA_insertA (l : List (Key × Nat)) (a k : Key) (b : Nat) :
    lookupA (insertA l a b) k = if k = a then some b else lookupA l k := by
  by_cases hk : k = a
  · subst hk; simp [lookupA_insertA_self]
  · simp [hk, lookupA_insertA_ne l a k b (Ne.symm hk)]

/-- cancel_one only rewrites the token of its own key. -/
theorem cancel_one_token (st : BotState) (k2 : Key) (now : Nat) (k : Key) :
    lookupA (cancel_one st k2 now).debounceToken k =
      if k = k2 then some now else lookupA st.debounceToken k := by
  unfold cancel_one
  split <;> simp [lookupA_insertA]

/-- cancel_one leaves every field other than pendingTask, cancelledTasks
and debounceToken unchanged. -/
theorem cancel_one_fields (st : BotState) (k2 : Key) (now : Nat) :
    (cancel_one st k2 now).teamUserIds = st.teamUserIds ∧
    (cancel_one st k2 now).knownGroupChats = st.knownGroupChats ∧
    (cancel_one st k2 now).lastChatActivity = st.lastChatActivity ∧
    (cancel_one st k2 now).closedSentAM = st.closedSentAM ∧
    (cancel_one st k2 now).closedSentPM = st.closedSentPM ∧
    (cancel_one st k2 now).lastAuthMsgAt = st.lastAuthMsgAt ∧
    (cancel_one st k2 now).chatLastResponse = st.chatLastResponse ∧
    (cancel_one st k2 now).createdTasks = st.createdTasks ∧
    (cancel_one st k2 now).fired = st.fired ∧
    (cancel_one st k2 now).attempts = st.attempts ∧
    (cancel_one st k2 now).dispatches = st.dispatches := by
  unfold cancel_one
  split <;> simp

/-- cancel_all_pending_for_chat rewrites the token of each of the five
period keys of the chat to the current instant. -/
theorem cancel_all_token_mem (st : BotState) (c : String) (now : Nat) (p : String)
    (hp : p ∈ (["AM", "PM", "WE", "LUNCH", "CUTOFF"] : List String)) :
    lookupA (cancel_all_pending_for_chat st c now).debounceToken (c, p) = some now := by
  simp only [cancel_all_pending_for_chat, List.foldl]
  fin_cases hp <;> simp [cancel_one_token]

/-- After cancel_all_pending_for_chat every token is either untouched or
equal to the current instant. -/
theorem cancel_all_token_cases (st : BotState) (c : String) (now : Nat) (k : Key) :
    lookupA (cancel_all_pending_for_chat st c now).debounceToken k = lookupA st.debounceToken k ∨
      lookupA (cancel_all_pending_for_chat st c now).debounceToken k = some now := by
  simp only [cancel_all_pending_for_chat, List.foldl, cancel_one_token]
  split_ifs <;> simp

/-- cancel_all_pending_for_chat leaves the ledgers untouched. -/
theorem cancel_all_fields (st : BotState) (c : String) (now : Nat) :
    (cancel_all_pending_for_chat st c now).teamUserIds = st.teamUserIds ∧
    (cancel_all_pending_for_chat st c now).knownGroupChats = st.knownGroupChats ∧
    (cancel_all_pending_for_chat st c now).lastChatActivity = st.lastChatActivity ∧
    (cancel_all_pending_for_chat st c now).closedSentAM = st.closedSentAM ∧
    (cancel_all_pending_for_chat st c now).closedSentPM = st.closedSentPM ∧
    (cancel_all_pending_for_chat st c now).lastAuthMsgAt = st.lastAuthMsgAt ∧
    (cancel_all_pending_for_chat st c now).chatLastResponse = st.chatLastResponse ∧
    (cancel_all_pending_for_chat st c now).createdTasks = st.createdTasks ∧
    (cancel_all_pending_for_chat st c now).fired = st.fired ∧
    (cancel_all_pending_for_chat st c now).attempts = st.attempts ∧
    (cancel_all_pending_for_chat st c now).dispatches = st.dispatches := by
  simp only [cancel_all_pending_for_chat, List.foldl]
  simp [cancel_one_fields]

/-- set_debounce rewrites exactly the token of its key. -/
theorem set_debounce_token (st : BotState) (c p : String) (now : Nat) (k : Key) :
    lookupA (set_debounce st c p now).debounceToken k =
      if k = (c, p) then some now else lookupA st.debounceToken k := by
  simp only [set_debounce]
  rcases hp : lookupA st.pendingTask (c, p) with _ | tid <;> simp [hp, lookupA_insertA]

/-- set_debounce leaves the ledgers and the task lists untouched. -/
theorem set_debounce_fields (st : BotState) (c p : String) (now : Nat) :
    (set_debounce st c p now).teamUserIds = st.teamUserIds ∧
    (set_debounce st c p now).knownGroupChats = st.knownGroupChats ∧
    (set_debounce st c p now).lastChatActivity = st.lastChatActivity ∧
    (set_debounce st c p now).closedSentAM = st.closedSentAM ∧
    (set_debounce st c p now).closedSentPM = st.closedSentPM ∧
    (set_debounce st c p now).lastAuthMsgAt = st.lastAuthMsgAt ∧
    (set_debounce st c p now).chatLastResponse = st.chatLastResponse ∧
    (set_debounce st c p now).createdTasks = st.createdTasks ∧
    (set_debounce st c p now).fired = st.fired ∧
    (set_debounce st c p now).attempts = st.attempts ∧
    (set_debounce st c p now).dispatches = st.dispatches := by
  simp only [set_debounce]
  rcases hp : lookupA st.pendingTask (c, p) with _ | tid <;> simp [hp]

/-- schedule_buffered rewrites exactly the token of its key. -/
theorem schedule_buffered_token (st : BotState) (c p : String) (i : Instant) (k : Key) :
    lookupA (schedule_buffered st c p i).debounceToken k =
      if k = (c, p) then some i.abs else lookupA st.debounceToken k := by
  unfold schedule_buffered
  simp [set_debounce_token]

/-- schedule_buffered creates the task for its key and token. -/
theorem schedule_buffered_created (st : BotState) (c p : String) (i : Instant) :
    (schedule_buffered st c p i).createdTasks = ⟨(c, p), i.abs⟩ :: st.createdTasks := by
  unfold schedule_buffered
  simp [(set_debounce_fields st c p i.abs).2.2.2.2.2.2.2.1]

/-- schedule_buffered leaves the ledgers untouched. -/
theorem schedule_buffered_fields (st : BotState) (c p : String) (i : Instant) :
    (schedule_buffered st c p i).teamUserIds = st.teamUserIds ∧
    (schedule_buffered st c p i).knownGroupChats = st.knownGroupChats ∧
    (schedule_buffered st c p i).lastChatActivity = st.lastChatActivity ∧
    (schedule_buffered st c p i).closedSentAM = st.closedSentAM ∧
    (schedule_buffered st c p i).closedSentPM = st.closedSentPM ∧
    (schedule_buffered st c p i).lastAuthMsgAt = st.lastAuthMsgAt ∧
    (schedule_buffered st c p i).chatLastResponse = st.chatLastResponse ∧
    (schedule_buffered st c p i).fired = st.fired ∧
    (schedule_buffered st c p i).attempts = st.attempts ∧
    (schedule_buffered st c p i).dispatches = st.dispatches := by
  have h := set_debounce_fields st c p i.abs
  unfold schedule_buffered
  simp [h.1, h.2.1, h.2.2.1, h.2.2.2.1, h.2.2.2.2.1, h.2.2.2.2.2.1, h.2.2.2.2.2.2.1,
        h.2.2.2.2.2.2.2.2.1, h.2.2.2.2.2.2.2.2.2.1, h.2.2.2.2.2.2.2.2.2.2]

/-- track_inbound leaves everything except knownGroupChats, teamUserIds and
lastChatActivity untouched. -/
theorem track_inbound_fields (cfg : Config) (st : BotState) (c : String) (ct : ChatType)
    (uid : Int) (i : Instant) :
    (track_inbound cfg st c ct uid i).closedSentAM = st.closedSentAM ∧
    (track_inbound cfg st c ct uid i).closedSentPM = st.closedSentPM ∧
    (track_inbound cfg st c ct uid i).lastAuthMsgAt = st.lastAuthMsgAt ∧
    (track_inbound cfg st c ct uid i).chatLastResponse = st.chatLastResponse ∧
    (track_inbound cfg st c ct uid i).debounceToken = st.debounceToken ∧
    (track_inbound cfg st c ct uid i).pendingTask = st.pendingTask ∧
    (track_inbound cfg st c ct uid i).createdTasks = st.createdTasks ∧
    (track_inbound cfg st c ct uid i).cancelledTasks = st.cancelledTasks ∧
    (track_inbound cfg st c ct uid i).fired = st.fired ∧
    (track_inbound cfg st c ct uid i).attempts = st.attempts ∧
    (track_inbound cfg st c ct uid i).dispatches = st.dispatches := by
  unfold track_inbound maybe_record_team_member
  split <;> split <;> simp

/-- track_inbound does not change the staff set when the chat is not a
designated team chat. -/
theorem track_inbound_team_notais (cfg : Config) (st : BotState) (c : String) (ct : ChatType)
    (uid : Int) (i : Instant) (h : ¬ c ∈ cfg.aisTeamChatIds) :
    (track_inbound cfg st c ct uid i).teamUserIds = st.teamUserIds := by
  unfold track_inbound maybe_record_team_member
  split <;> simp [h]

/-- maybe_record_team_member only extends the staff set. -/
theorem maybe_record_team_mono (cfg : Config) (st : BotState) (c : String) (uid : Int) :
    st.teamUserIds ⊆ (maybe_record_team_member cfg st c uid).teamUserIds := by
  unfold maybe_record_team_member
  split <;> [skip; simp]
  split <;> simp [List.subset_cons_self]

/-- track_inbound only extends the staff set. -/
theorem track_inbound_team_mono (cfg : Config) (st : BotState) (c : String) (ct : ChatType)
    (uid : Int) (i : Instant) :
    st.teamUserIds ⊆ (track_inbound cfg st c ct uid i).teamUserIds := by
  simp only [track_inbound]
  split
  · exact maybe_record_team_mono cfg { st with knownGroupChats := c :: st.knownGroupChats } c uid
  · exact maybe_record_team_mono cfg st c uid

/-- A stale token makes the decision body a no-op. -/
theorem buffer_stale (cfg : Config) (st : BotState) (c p : String) (tok : Nat) (i : Instant)
    (h : lookupA st.debounceToken (c, p) ≠ some tok) :
    buffer_then_send cfg st c p tok i = st := by
  unfold buffer_then_send
  have hl : is_latest_token st c p tok = false := by
    unfold is_latest_token
    simpa using h
  simp [hl]

/-- The AM branch touches only the send ledgers. -/
theorem buffer_AM_fields (cfg : Config) (st : BotState) (c : String) (tok : Nat) (i : Instant) :
    (buffer_AM cfg st c tok i).teamUserIds = st.teamUserIds ∧
    (buffer_AM cfg st c tok i).knownGroupChats = st.knownGroupChats ∧
    (buffer_AM cfg st c tok i).lastChatActivity = st.lastChatActivity ∧
    (buffer_AM cfg st c tok i).lastAuthMsgAt = st.lastAuthMsgAt ∧
    (buffer_AM cfg st c tok i).debounceToken = st.debounceToken ∧
    (buffer_AM cfg st c tok i).pendingTask = st.pendingTask ∧
    (buffer_AM cfg st c tok i).createdTasks = st.createdTasks ∧
    (buffer_AM cfg st c tok i).cancelledTasks = st.cancelledTasks ∧
    (buffer_AM cfg st c tok i).fired = st.fired := by
  unfold buffer_AM attempt_send
  repeat' split
  all_goals simp

/-- The PM branch touches only the send ledgers. -/
theorem buffer_PM_fields (cfg : Config) (st : BotState) (c : String) (tok : Nat) (i : Instant) :
    (buffer_PM cfg st c tok i).teamUserIds = st.teamUserIds ∧
    (buffer_PM cfg st c tok i).knownGroupChats = st.knownGroupChats ∧
    (buffer_PM cfg st c tok i).lastChatActivity = st.lastChatActivity ∧
    (buffer_PM cfg st c tok i).lastAuthMsgAt = st.lastAuthMsgAt ∧
    (buffer_PM cfg st c tok i).debounceToken = st.debounceToken ∧
    (buffer_PM cfg st c tok i).pendingTask = st.pendingTask ∧
    (buffer_PM cfg st c tok i).createdTasks = st.createdTasks ∧
    (buffer_PM cfg st c tok i).cancelledTasks = st.cancelledTasks ∧
    (buffer_PM cfg st c tok i).fired = st.fired := by
  unfold buffer_PM attempt_send
  repeat' split
  all_goals simp

/-- The WE branch touches only the send ledgers. -/
theorem buffer_WE_fields (cfg : Config) (st : BotState) (c : String) (tok : Nat) (i : Instant) :
    (buffer_WE cfg st c tok i).teamUserIds = st.teamUserIds ∧
    (buffer_WE cfg st c tok i).knownGroupChats = st.knownGroupChats ∧
    (buffer_WE cfg st c tok i).lastChatActivity = st.lastChatActivity ∧
    (buffer_WE cfg st c tok i).lastAuthMsgAt = st.lastAuthMsgAt ∧
    (buffer_WE cfg st c tok i).debounceToken = st.debounceToken ∧
    (buffer_WE cfg st c tok i).pendingTask = st.pendingTask ∧
    (buffer_WE cfg st c tok i).createdTasks = st.createdTasks ∧
    (buffer_WE cfg st c tok i).cancelledTasks = st.cancelledTasks ∧
    (buffer_WE cfg st c tok i).fired = st.fired := by
  unfold buffer_WE attempt_send mark_sent
  repeat' split
  all_goals simp

/-- The LUNCH branch touches only the send ledgers. -/
theorem buffer_LUNCH_fields (cfg : Config) (st : BotState) (c : String) (tok : Nat) (i : Instant) :
    (buffer_LUNCH cfg st c tok i).teamUserIds = st.teamUserIds ∧
    (buffer_LUNCH cfg st c tok i).knownGroupChats = st.knownGroupChats ∧
    (buffer_LUNCH cfg st c tok i).lastChatActivity = st.lastChatActivity ∧
    (buffer_LUNCH cfg st c tok i).lastAuthMsgAt = st.lastAuthMsgAt ∧
    (buffer_LUNCH cfg st c tok i).debounceToken = st.debounceToken ∧
    (buffer_LUNCH cfg st c tok i).pendingTask = st.pendingTask ∧
    (buffer_LUNCH cfg st c tok i).createdTasks = st.createdTasks ∧
    (buffer_LUNCH cfg st c tok i).cancelledTasks = st.cancelledTasks ∧
    (buffer_LUNCH cfg st c tok i).fired = st.fired := by
  unfold buffer_LUNCH attempt_send mark_sent
  repeat' split
  all_goals simp

/-- The CUTOFF branch touches only the send ledgers. -/
theorem buffer_CUTOFF_fields (cfg : Config) (st : BotState) (c : String) (tok : Nat) (i : Instant) :
    (buffer_CUTOFF cfg st c tok i).teamUserIds = st.teamUserIds ∧
    (buffer_CUTOFF cfg st c tok i).knownGroupChats = st.knownGroupChats ∧
    (buffer_CUTOFF cfg st c tok i).lastChatActivity = st.lastChatActivity ∧
    (buffer_CUTOFF cfg st c tok i).lastAuthMsgAt = st.lastAuthMsgAt ∧
    (buffer_CUTOFF cfg st c tok i).debounceToken = st.debounceToken ∧
    (buffer_CUTOFF cfg st c tok i).pendingTask = st.pendingTask ∧
    (buffer_CUTOFF cfg st c tok i).createdTasks = st.createdTasks ∧
    (buffer_CUTOFF cfg st c tok i).cancelledTasks = st.cancelledTasks ∧
    (buffer_CUTOFF cfg st c tok i).fired = st.fired := by
  unfold buffer_CUTOFF attempt_send mark_sent
  repeat' split
  all_goals simp

/-- The decision body leaves everything but the send ledgers untouched. -/
theorem buffer_fields (cfg : Config) (st : BotState) (c p : String) (tok : Nat) (i : Instant) :
    (buffer_then_send cfg st c p tok i).teamUserIds = st.teamUserIds ∧
    (buffer_then_send cfg st c p tok i).knownGroupChats = st.knownGroupChats ∧
    (buffer_then_send cfg st c p tok i).lastChatActivity = st.lastChatActivity ∧
    (buffer_then_send cfg st c p tok i).lastAuthMsgAt = st.lastAuthMsgAt ∧
    (buffer_then_send cfg st c p tok i).debounceToken = st.debounceToken ∧
    (buffer_then_send cfg st c p tok i).pendingTask = st.pendingTask ∧
    (buffer_then_send cfg st c p tok i).createdTasks = st.createdTasks ∧
    (buffer_then_send cfg st c p tok i).cancelledTasks = st.cancelledTasks ∧
    (buffer_then_send cfg st c p tok i).fired = st.fired := by
  unfold buffer_then_send
  repeat' split
  all_goals
    first
    | exact buffer_AM_fields cfg st c tok i
    | exact buffer_PM_fields cfg st c tok i
    | exact buffer_WE_fields cfg st c tok i
    | exact buffer_LUNCH_fields cfg st c tok i
    | exact buffer_CUTOFF_fields cfg st c tok i
    | simp

/-- The AM branch records at most one dispatch, for its own key. -/
theorem buffer_AM_dispatches (cfg : Config) (st : BotState) (c : String) (tok : Nat) (i : Instant) :
    (buffer_AM cfg st c tok i).dispatches = st.dispatches ∨
      ((buffer_AM cfg st c tok i).dispatches = ((c, "AM"), i.abs) :: st.dispatches ∧
        cfg.sendOk (c, "AM") i.abs = true) := by
  unfold buffer_AM attempt_send
  repeat' split
  all_goals simp_all

/-- On transport failure the AM branch records nothing. -/
theorem buffer_AM_fail (cfg : Config) (st : BotState) (c : String) (tok : Nat) (i : Instant)
    (h : cfg.sendOk (c, "AM") i.abs = false) :
    (buffer_AM cfg st c tok i).dispatches = st.dispatches ∧
    (buffer_AM cfg st c tok i).chatLastResponse = st.chatLastResponse ∧
    (buffer_AM cfg st c tok i).closedSentAM = st.closedSentAM ∧
    (buffer_AM cfg st c tok i).closedSentPM = st.closedSentPM := by
  unfold buffer_AM attempt_send
  repeat' split
  all_goals simp_all

/-- The AM branch never sends to an unregistered chat. -/
theorem buffer_AM_unknown (cfg : Config) (st : BotState) (c : String) (tok : Nat) (i : Instant)
    (h : ¬ c ∈ st.knownGroupChats) :
    (buffer_AM cfg st c tok i).dispatches = st.dispatches := by
  unfold buffer_AM attempt_send
  repeat' split
  all_goals simp_all

/-- The AM branch records at most one send attempt, with its own token. -/
theorem buffer_AM_attempts (cfg : Config) (st : BotState) (c : String) (tok : Nat) (i : Instant) :
    (buffer_AM cfg st c tok i).attempts = st.attempts ∨
      (buffer_AM cfg st c tok i).attempts = ((c, "AM"), tok, i.abs) :: st.attempts := by
  unfold buffer_AM attempt_send
  repeat' split
  all_goals simp_all

/-- The PM branch records at most one dispatch, for its own key. -/
theorem buffer_PM_dispatches (cfg : Config) (st : BotState) (c : String) (tok : Nat) (i : Instant) :
    (buffer_PM cfg st c tok i).dispatches = st.dispatches ∨
      ((buffer_PM cfg st c tok i).dispatches = ((c, "PM"), i.abs) :: st.dispatches ∧
        cfg.sendOk (c, "PM") i.abs = true) := by
  unfold buffer_PM attempt_send
  repeat' split
  all_goals simp_all

/-- On transport failure the PM branch records nothing. -/
theorem buffer_PM_fail (cfg : Config) (st : BotState) (c : String) (tok : Nat) (i : Instant)
    (h : cfg.sendOk (c, "PM") i.abs = false) :
    (buffer_PM cfg st c tok i).dispatches = st.dispatches ∧
    (buffer_PM cfg st c tok i).chatLastResponse = st.chatLastResponse ∧
    (buffer_PM cfg st c tok i).closedSentAM = st.closedSentAM ∧
    (buffer_PM cfg st c tok i).closedSentPM = st.closedSentPM := by
  unfold buffer_PM attempt_send
  repeat' split
  all_goals simp_all

/-- The PM branch never sends to an unregistered chat. -/
theorem buffer_PM_unknown (cfg : Config) (st : BotState) (c : String) (tok : Nat) (i : Instant)
    (h : ¬ c ∈ st.knownGroupChats) :
    (buffer_PM cfg st c tok i).dispatches = st.dispatches := by
  unfold buffer_PM attempt_send
  repeat' split
  all_goals simp_all

/-- The PM branch records at most one send attempt, with its own token. -/
theorem buffer_PM_attempts (cfg : Config) (st : BotState) (c : String) (tok : Nat) (i : Instant) :
    (buffer_PM cfg st c tok i).attempts = st.attempts ∨
      (buffer_PM cfg st c tok i).attempts = ((c, "PM"), tok, i.abs) :: st.attempts := by
  unfold buffer_PM attempt_send
  repeat' split
  all_goals simp_all

/-- The WE branch records at most one dispatch, for its own key. -/
theorem buffer_WE_dispatches (cfg : Config) (st : BotState) (c : String) (tok : Nat) (i : Instant) :
    (buffer_WE cfg st c tok i).dispatches = st.dispatches ∨
      ((buffer_WE cfg st c tok i).dispatches = ((c, "WE"), i.abs) :: st.dispatches ∧
        cfg.sendOk (c, "WE") i.abs = true) := by
  unfold buffer_WE attempt_send mark_sent
  repeat' split
  all_goals simp_all

/-- On transport failure the WE branch records nothing. -/
theorem buffer_WE_fail (cfg : Config) (st : BotState) (c : String) (tok : Nat) (i : Instant)
    (h : cfg.sendOk (c, "WE") i.abs = false) :
    (buffer_WE cfg st c tok i).dispatches = st.dispatches ∧
    (buffer_WE cfg st c tok i).chatLastResponse = st.chatLastResponse ∧
    (buffer_WE cfg st c tok i).closedSentAM = st.closedSentAM ∧
    (buffer_WE cfg st c tok i).closedSentPM = st.closedSentPM := by
  unfold buffer_WE attempt_send mark_sent
  repeat' split
  all_goals simp_all

/-- The WE branch never sends to an unregistered chat. -/
theorem buffer_WE_unknown (cfg : Config) (st : BotState) (c : String) (tok : Nat) (i : Instant)
    (h : ¬ c ∈ st.knownGroupChats) :
    (buffer_WE cfg st c tok i).dispatches = st.dispatches := by
  unfold buffer_WE attempt_send mark_sent
  repeat' split
  all_goals simp_all

/-- The WE branch records at most one send attempt, with its own token. -/
theorem buffer_WE_attempts (cfg : Config) (st : BotState) (c : String) (tok : Nat) (i : Instant) :
    (buffer_WE cfg st c tok i).attempts = st.attempts ∨
      (buffer_WE cfg st c tok i).attempts = ((c, "WE"), tok, i.abs) :: st.attempts := by
  unfold buffer_WE attempt_send mark_sent
  repeat' split
  all_goals simp_all

/-- The LUNCH branch records at most one dispatch, for its own key. -/
theorem buffer_LUNCH_dispatches (cfg : Config) (st : BotState) (c : String) (tok : Nat) (i : Instant) :
    (buffer_LUNCH cfg st c tok i).dispatches = st.dispatches ∨
      ((buffer_LUNCH cfg st c tok i).dispatches = ((c, "LUNCH"), i.abs) :: st.dispatches ∧
        cfg.sendOk (c, "LUNCH") i.abs = true) := by
  unfold buffer_LUNCH attempt_send mark_sent
  repeat' split
  all_goals simp_all

/-- On transport failure the LUNCH branch records nothing. -/
theorem buffer_LUNCH_fail (cfg : Config) (st : BotState) (c : String) (tok : Nat) (i : Instant)
    (h : cfg.sendOk (c, "LUNCH") i.abs = false) :
    (buffer_LUNCH cfg st c tok i).dispatches = st.dispatches ∧
    (buffer_LUNCH cfg st c tok i).chatLastResponse = st.chatLastResponse ∧
    (buffer_LUNCH cfg st c tok i).closedSentAM = st.closedSentAM ∧
    (buffer_LUNCH cfg st c tok i).closedSentPM = st.closedSentPM := by
  unfold buffer_LUNCH attempt_send mark_sent
  repeat' split
  all_goals simp_all

/-- The LUNCH branch never sends to an unregistered chat. -/
theorem buffer_LUNCH_unknown (cfg : Config) (st : BotState) (c : String) (tok : Nat) (i : Instant)
    (h : ¬ c ∈ st.knownGroupChats) :
    (buffer_LUNCH cfg st c tok i).dispatches = st.dispatches := by
  unfold buffer_LUNCH attempt_send mark_sent
  repeat' split
  all_goals simp_all

/-- The LUNCH branch records at most one send attempt, with its own token. -/
theorem buffer_LUNCH_attempts (cfg : Config) (st : BotState) (c : String) (tok : Nat) (i : Instant) :
    (buffer_LUNCH cfg st c tok i).attempts = st.attempts ∨
      (buffer_LUNCH cfg st c tok i).attempts = ((c, "LUNCH"), tok, i.abs) :: st.attempts := by
  unfold buffer_LUNCH attempt_send mark_sent
  repeat' split
  all_goals simp_all

/-- The CUTOFF branch records at most one dispatch, for its own key. -/
theorem buffer_CUTOFF_dispatches (cfg : Config) (st : BotState) (c : String) (tok : Nat) (i : Instant) :
    (buffer_CUTOFF cfg st c tok i).dispatches = st.dispatches ∨
      ((buffer_CUTOFF cfg st c tok i).dispatches = ((c, "CUTOFF"), i.abs) :: st.dispatches ∧
        cfg.sendOk (c, "CUTOFF") i.abs = true) := by
  unfold buffer_CUTOFF attempt_send mark_sent
  repeat' split
  all_goals simp_all

/-- On transport failure the CUTOFF branch records nothing. -/
theorem buffer_CUTOFF_fail (cfg : Config) (st : BotState) (c : String) (tok : Nat) (i : Instant)
    (h : cfg.sendOk (c, "CUTOFF") i.abs = false) :
    (buffer_CUTOFF cfg st c tok i).dispatches = st.dispatches ∧
    (buffer_CUTOFF cfg st c tok i).chatLastResponse = st.chatLastResponse ∧
    (buffer_CUTOFF cfg st c tok i).closedSentAM = st.closedSentAM ∧
    (buffer_CUTOFF cfg st c tok i).closedSentPM = st.closedSentPM := by
  unfold buffer_CUTOFF attempt_send mark_sent
  repeat' split
  all_goals simp_all

/-- The CUTOFF branch never sends to an unregistered chat. -/
theorem buffer_CUTOFF_unknown (cfg : Config) (st : BotState) (c : String) (tok : Nat) (i : Instant)
    (h : ¬ c ∈ st.knownGroupChats) :
    (buffer_CUTOFF cfg st c tok i).dispatches = st.dispatches := by
  unfold buffer_CUTOFF attempt_send mark_sent
  repeat' split
  all_goals simp_all

/-- The CUTOFF branch records at most one send attempt, with its own token. -/
theorem buffer_CUTOFF_attempts (cfg : Config) (st : BotState) (c : String) (tok : Nat) (i : Instant) :
    (buffer_CUTOFF cfg st c tok i).attempts = st.attempts ∨
      (buffer_CUTOFF cfg st c tok i).attempts = ((c, "CUTOFF"), tok, i.abs) :: st.attempts := by
  unfold buffer_CUTOFF attempt_send mark_sent
  repeat' split
  all_goals simp_all

/-- Each run of the decision body records at most one dispatch, for its own
key at the current instant, and only when its token is still current and the
transport succeeded. -/
theorem buffer_dispatches (cfg : Config) (st : BotState) (c p : String) (tok : Nat) (i : Instant) :
    (buffer_then_send cfg st c p tok i).dispatches = st.dispatches ∨
      ((buffer_then_send cfg st c p tok i).dispatches = ((c, p), i.abs) :: st.dispatches ∧
        lookupA st.debounceToken (c, p) = some tok ∧ cfg.sendOk (c, p) i.abs = true) := by
  unfold buffer_then_send
  split
  · left; rfl
  next hl =>
  have htok : lookupA st.debounceToken (c, p) = some tok := by
    unfold is_latest_token at hl
    simpa using hl
  split
  next hp =>
    subst hp
    rcases buffer_AM_dispatches cfg st c tok i with h | ⟨h1, h2⟩
    · left; exact h
    · right; exact ⟨h1, htok, h2⟩
  split
  next hp =>
    subst hp
    rcases buffer_PM_dispatches cfg st c tok i with h | ⟨h1, h2⟩
    · left; exact h
    · right; exact ⟨h1, htok, h2⟩
  split
  next hp =>
    subst hp
    rcases buffer_WE_dispatches cfg st c tok i with h | ⟨h1, h2⟩
    · left; exact h
    · right; exact ⟨h1, htok, h2⟩
  split
  next hp =>
    subst hp
    rcases buffer_LUNCH_dispatches cfg st c tok i with h | ⟨h1, h2⟩
    · left; exact h
    · right; exact ⟨h1, htok, h2⟩
  split
  next hp =>
    subst hp
    rcases buffer_CUTOFF_dispatches cfg st c tok i with h | ⟨h1, h2⟩
    · left; exact h
    · right; exact ⟨h1, htok, h2⟩
  left; rfl

/-- On transport failure the decision body records nothing. -/
theorem buffer_fail (cfg : Config) (st : BotState) (c p : String) (tok : Nat) (i : Instant)
    (h : ∀ q : String, cfg.sendOk (c, q) i.abs = false) :
    (buffer_then_send cfg st c p tok i).dispatches = st.dispatches ∧
    (buffer_then_send cfg st c p tok i).chatLastResponse = st.chatLastResponse ∧
    (buffer_then_send cfg st c p tok i).closedSentAM = st.closedSentAM ∧
    (buffer_then_send cfg st c p tok i).closedSentPM = st.closedSentPM := by
  unfold buffer_then_send
  repeat' split
  all_goals
    first
    | exact buffer_AM_fail cfg st c tok i (h "AM")
    | exact buffer_PM_fail cfg st c tok i (h "PM")
    | exact buffer_WE_fail cfg st c tok i (h "WE")
    | exact buffer_LUNCH_fail cfg st c tok i (h "LUNCH")
    | exact buffer_CUTOFF_fail cfg st c tok i (h "CUTOFF")
    | simp

/-- The decision body never sends to an unregistered chat. -/
theorem buffer_unknown (cfg : Config) (st : BotState) (c p : String) (tok : Nat) (i : Instant)
    (h : ¬ c ∈ st.knownGroupChats) :
    (buffer_then_send cfg st c p tok i).dispatches = st.dispatches := by
  unfold buffer_then_send
  repeat' split
  all_goals
    first
    | exact buffer_AM_unknown cfg st c tok i h
    | exact buffer_PM_unknown cfg st c tok i h
    | exact buffer_WE_unknown cfg st c tok i h
    | exact buffer_LUNCH_unknown cfg st c tok i h
    | exact buffer_CUTOFF_unknown cfg st c tok i h
    | simp

/-- The decision body records at most one send attempt, with its own key
and token. -/
theorem buffer_attempts (cfg : Config) (st : BotState) (c p : String) (tok : Nat) (i : Instant) :
    (buffer_then_send cfg st c p tok i).attempts = st.attempts ∨
      (buffer_then_send cfg st c p tok i).attempts = ((c, p), tok, i.abs) :: st.attempts := by
  unfold buffer_then_send
  split
  · left; rfl
  split
  next hp =>
    subst hp
    exact buffer_AM_attempts cfg st c tok i
  split
  next hp =>
    subst hp
    exact buffer_PM_attempts cfg st c tok i
  split
  next hp =>
    subst hp
    exact buffer_WE_attempts cfg st c tok i
  split
  next hp =>
    subst hp
    exact buffer_LUNCH_attempts cfg st c tok i
  split
  next hp =>
    subst hp
    exact buffer_CUTOFF_attempts cfg st c tok i
  left; rfl

/-- A task resumption never changes the staff set, the chat registry, the
activity ledger, the staff stamps, the tokens, or the task creation and
cancellation lists. -/
theorem stepFire_fields (cfg : Config) (st : BotState) (k : Key) (tok : Nat) (i : Instant) :
    (stepFire cfg st k tok i).teamUserIds = st.teamUserIds ∧
    (stepFire cfg st k tok i).knownGroupChats = st.knownGroupChats ∧
    (stepFire cfg st k tok i).lastChatActivity = st.lastChatActivity ∧
    (stepFire cfg st k tok i).lastAuthMsgAt = st.lastAuthMsgAt ∧
    (stepFire cfg st k tok i).debounceToken = st.debounceToken ∧
    (stepFire cfg st k tok i).createdTasks = st.createdTasks ∧
    (stepFire cfg st k tok i).cancelledTasks = st.cancelledTasks := by
  have hb := buffer_fields cfg st k.1 k.2 tok i
  simp only [stepFire, clear_debounce]
  split_ifs <;>
    simp [hb.1, hb.2.1, hb.2.2.1, hb.2.2.2.1, hb.2.2.2.2.1, hb.2.2.2.2.2.2.1,
          hb.2.2.2.2.2.2.2.1]

/-- A resumption whose token is no longer current dispatches nothing and
writes no ledger record. -/
theorem stepFire_stale (cfg : Config) (st : BotState) (k : Key) (tok : Nat) (i : Instant)
    (h : lookupA st.debounceToken k ≠ some tok) :
    (stepFire cfg st k tok i).dispatches = st.dispatches ∧
    (stepFire cfg st k tok i).chatLastResponse = st.chatLastResponse ∧
    (stepFire cfg st k tok i).closedSentAM = st.closedSentAM ∧
    (stepFire cfg st k tok i).closedSentPM = st.closedSentPM := by
  have hb : buffer_then_send cfg st k.1 k.2 tok i = st := by
    apply buffer_stale
    simpa using h
  simp only [stepFire, clear_debounce]
  split_ifs <;> simp [hb]

/-- A resumption adds a dispatch only for its own key, at the current
instant, only when its token is still current, the transport succeeded, and
the resumption is the punctual wake of the armed task. -/
theorem stepFire_dispatches (cfg : Config) (st : BotState) (k : Key) (tok : Nat) (i : Instant) :
    (stepFire cfg st k tok i).dispatches = st.dispatches ∨
      ((stepFire cfg st k tok i).dispatches = (k, i.abs) :: st.dispatches ∧
        lookupA st.debounceToken k = some tok ∧ i.abs = tok + FLOOD_BUFFER_SECONDS ∧
        cfg.sendOk k i.abs = true) := by
  simp only [stepFire, clear_debounce]
  split_ifs with hg hc ht
  · left; simp
  · rcases buffer_dispatches cfg st k.1 k.2 tok i with h | ⟨h1, h2, h3⟩
    · left; simp [h]
    · right
      refine ⟨by simp [h1], by simpa using h2, by simpa using ht, by simpa using h3⟩
  · left; rfl
  · left; rfl

/-- On transport failure a resumption records nothing. -/
theorem stepFire_fail (cfg : Config) (st : BotState) (k : Key) (tok : Nat) (i : Instant)
    (h : ∀ q : String, cfg.sendOk (k.1, q) i.abs = false) :
    (stepFire cfg st k tok i).dispatches = st.dispatches ∧
    (stepFire cfg st k tok i).chatLastResponse = st.chatLastResponse ∧
    (stepFire cfg st k tok i).closedSentAM = st.closedSentAM ∧
    (stepFire cfg st k tok i).closedSentPM = st.closedSentPM := by
  have hb := buffer_fail cfg st k.1 k.2 tok i h
  simp only [stepFire, clear_debounce]
  split_ifs <;> simp [hb.1, hb.2.1, hb.2.2.1, hb.2.2.2]

/-- Once an executable resumption ran, the pending entry of the key is
cleared: the key is idle again. -/
theorem stepFire_pending (cfg : Config) (st : BotState) (k : Key) (tok : Nat) (i : Instant)
    (hcr : (⟨k, tok⟩ : Task) ∈ st.createdTasks) (hnf : ¬ (⟨k, tok⟩ : Task) ∈ st.fired)
    (hrun : (⟨k, tok⟩ : Task) ∈ st.cancelledTasks ∨ i.abs = tok + FLOOD_BUFFER_SECONDS) :
    lookupA (stepFire cfg st k tok i).pendingTask k = none := by
  simp only [stepFire, clear_debounce]
  split_ifs with hg hc ht
  · simp [lookupA_eraseA_self]
  · simp [lookupA_eraseA_self]
  · rcases hrun with h | h
    · exact absurd h (by simpa using hc)
    · exact absurd h (by simpa using ht)
  · simp [hcr, hnf] at hg

/-- A resumption grows the attempt log for a given key and token only when
it is the resumption of that very task and the task had not finished yet;
the task is then marked finished. -/
theorem stepFire_attemptsFor (cfg : Config) (st : BotState) (k : Key) (tok : Nat) (i : Instant)
    (k0 : Key) (tok0 : Nat) :
    attemptsFor (stepFire cfg st k tok i) k0 tok0 = attemptsFor st k0 tok0 ∨
      (¬ (⟨k0, tok0⟩ : Task) ∈ st.fired ∧
        (⟨k0, tok0⟩ : Task) ∈ (stepFire cfg st k tok i).fired ∧
        attemptsFor (stepFire cfg st k tok i) k0 tok0 =
          (k0, tok0, i.abs) :: attemptsFor st k0 tok0) := by
  simp only [stepFire, clear_debounce]
  split_ifs with hg hc ht
  · left; simp [attemptsFor]
  · rcases buffer_attempts cfg st k.1 k.2 tok i with h | h
    · left; simp [attemptsFor, h]
    · by_cases hk : (k.1, k.2) = k0 ∧ tok = tok0
      · rcases hk with ⟨hk1, hk2⟩
        have hkk : k = k0 := by
          rw [← hk1]
        subst hkk
        subst hk2
        have hnf : ¬ (⟨k, tok⟩ : Task) ∈ st.fired := by
          simp at hg
          exact hg.2
        right
        refine ⟨hnf, by simp, ?_⟩
        simp [attemptsFor, h]
      · left
        simp only [attemptsFor, h]
        rw [List.filter_cons_of_neg]
        simp only [Bool.and_eq_true, decide_eq_true_eq, not_and]
        intro h1 h2
        exact hk ⟨h1, h2⟩
  · left; rfl
  · left; rfl

/-- The finished-task list only grows at a resumption. -/
theorem stepFire_fired_mono (cfg : Config) (st : BotState) (k : Key) (tok : Nat) (i : Instant) :
    st.fired ⊆ (stepFire cfg st k tok i).fired := by
  have hb := buffer_fields cfg st k.1 k.2 tok i
  simp only [stepFire, clear_debounce]
  split_ifs <;> simp [hb.2.2.2.2.2.2.2.2, List.subset_cons_self]

/-- maybe_record_team_member touches only the staff set. -/
theorem maybe_record_fields (cfg : Config) (st : BotState) (c : String) (uid : Int) :
    (maybe_record_team_member cfg st c uid).knownGroupChats = st.knownGroupChats ∧
    (maybe_record_team_member cfg st c uid).lastChatActivity = st.lastChatActivity ∧
    (maybe_record_team_member cfg st c uid).closedSentAM = st.closedSentAM ∧
    (maybe_record_team_member cfg st c uid).closedSentPM = st.closedSentPM ∧
    (maybe_record_team_member cfg st c uid).lastAuthMsgAt = st.lastAuthMsgAt ∧
    (maybe_record_team_member cfg st c uid).chatLastResponse = st.chatLastResponse ∧
    (maybe_record_team_member cfg st c uid).debounceToken = st.debounceToken ∧
    (maybe_record_team_member cfg st c uid).pendingTask = st.pendingTask ∧
    (maybe_record_team_member cfg st c uid).createdTasks = st.createdTasks ∧
    (maybe_record_team_member cfg st c uid).cancelledTasks = st.cancelledTasks ∧
    (maybe_record_team_member cfg st c uid).fired = st.fired ∧
    (maybe_record_team_member cfg st c uid).attempts = st.attempts ∧
    (maybe_record_team_member cfg st c uid).dispatches = st.dispatches := by
  unfold maybe_record_team_member
  split <;> simp

/-- Token lookup after the staff-activity sequence: either the original
value of the given base map, or the fresh token. -/
theorem cancel_all_set_token (st1 : BotState) (c : String) (i : Instant) (k : Key)
    (base : List (Key × Nat)) (hb : st1.debounceToken = base) :
    lookupA (cancel_all_pending_for_chat (set_last_auth_msg st1 c i) c i.abs).debounceToken k =
        lookupA base k ∨
      lookupA (cancel_all_pending_for_chat (set_last_auth_msg st1 c i) c i.abs).debounceToken k =
        some i.abs := by
  rcases cancel_all_token_cases (set_last_auth_msg st1 c i) c i.abs k with h | h
  · left
    rw [h]
    simp [set_last_auth_msg, hb]
  · right
    exact h

/-- Token lookup after an arming: either the original value of the given
base map, or the fresh token. -/
theorem sched_token_leaf (st1 : BotState) (c p : String) (i : Instant) (k : Key)
    (base : List (Key × Nat)) (hb : st1.debounceToken = base) :
    lookupA (schedule_buffered st1 c p i).debounceToken k = lookupA base k ∨
      lookupA (schedule_buffered st1 c p i).debounceToken k = some i.abs := by
  rw [schedule_buffered_token]
  split_ifs
  · right; rfl
  · left; rw [hb]

/-- The message handler never writes a send ledger record, never finishes a
task, and never records an attempt or a dispatch. -/
theorem stepInbound_fields (cfg : Config) (st : BotState) (c : String) (ct : ChatType)
    (uid : Int) (i : Instant) :
    (stepInbound cfg st c ct uid i).closedSentAM = st.closedSentAM ∧
    (stepInbound cfg st c ct uid i).closedSentPM = st.closedSentPM ∧
    (stepInbound cfg st c ct uid i).chatLastResponse = st.chatLastResponse ∧
    (stepInbound cfg st c ct uid i).fired = st.fired ∧
    (stepInbound cfg st c ct uid i).attempts = st.attempts ∧
    (stepInbound cfg st c ct uid i).dispatches = st.dispatches := by
  have ht := track_inbound_fields cfg st c ct uid i
  simp only [stepInbound]
  split_ifs <;>
    simp [cancel_all_fields, schedule_buffered_fields, set_last_auth_msg,
          ht.1, ht.2.1, ht.2.2.2.1, ht.2.2.2.2.2.2.2.2.1, ht.2.2.2.2.2.2.2.2.2.1,
          ht.2.2.2.2.2.2.2.2.2.2]

/-- After the message handler, every token is either the original one or
the token of the current instant. -/
theorem stepInbound_token (cfg : Config) (st : BotState) (c : String) (ct : ChatType)
    (uid : Int) (i : Instant) (k : Key) :
    lookupA (stepInbound cfg st c ct uid i).debounceToken k = lookupA st.debounceToken k ∨
      lookupA (stepInbound cfg st c ct uid i).debounceToken k = some i.abs := by
  have ht := track_inbound_fields cfg st c ct uid i
  simp only [stepInbound]
  split_ifs <;>
    first
    | (left; rw [ht.2.2.2.2.1])
    | exact cancel_all_set_token (track_inbound cfg st c ct uid i) c i k
        st.debounceToken ht.2.2.2.2.1
    | exact sched_token_leaf (track_inbound cfg st c ct uid i) c _ i k
        st.debounceToken ht.2.2.2.2.1

/-- The message handler only extends the staff set. -/
theorem stepInbound_team_mono (cfg : Config) (st : BotState) (c : String) (ct : ChatType)
    (uid : Int) (i : Instant) :
    st.teamUserIds ⊆ (stepInbound cfg st c ct uid i).teamUserIds := by
  have hm := track_inbound_team_mono cfg st c ct uid i
  simp only [stepInbound]
  split_ifs <;>
    first
    | exact hm
    | (simp only [cancel_all_fields, schedule_buffered_fields, set_last_auth_msg]; exact hm)

/-- The quick-reply command handler never writes a send ledger record,
never finishes a task, and never records an attempt or a dispatch. -/
theorem stepCommandQuick_fields (cfg : Config) (st : BotState) (c : String)
    (uid : Int) (i : Instant) :
    (stepCommandQuick cfg st c uid i).closedSentAM = st.closedSentAM ∧
    (stepCommandQuick cfg st c uid i).closedSentPM = st.closedSentPM ∧
    (stepCommandQuick cfg st c uid i).chatLastResponse = st.chatLastResponse ∧
    (stepCommandQuick cfg st c uid i).fired = st.fired ∧
    (stepCommandQuick cfg st c uid i).attempts = st.attempts ∧
    (stepCommandQuick cfg st c uid i).dispatches = st.dispatches := by
  have hm := maybe_record_fields cfg st c uid
  simp only [stepCommandQuick]
  split_ifs <;>
    simp [cancel_all_fields, set_last_auth_msg, hm.2.2.1, hm.2.2.2.1, hm.2.2.2.2.2.1,
          hm.2.2.2.2.2.2.2.2.2.2.1, hm.2.2.2.2.2.2.2.2.2.2.2.1, hm.2.2.2.2.2.2.2.2.2.2.2.2]

/-- After the quick-reply command handler, every token is either the
original one or the token of the current instant. -/
theorem stepCommandQuick_token (cfg : Config) (st : BotState) (c : String)
    (uid : Int) (i : Instant) (k : Key) :
    lookupA (stepCommandQuick cfg st c uid i).debounceToken k = lookupA st.debounceToken k ∨
      lookupA (stepCommandQuick cfg st c uid i).debounceToken k = some i.abs := by
  have hm := maybe_record_fields cfg st c uid
  simp only [stepCommandQuick]
  split_ifs
  · exact cancel_all_set_token (maybe_record_team_member cfg st c uid) c i k
      st.debounceToken hm.2.2.2.2.2.2.1
  · left
    rw [hm.2.2.2.2.2.2.1]

/-- The quick-reply command handler only extends the staff set. -/
theorem stepCommandQuick_team_mono (cfg : Config) (st : BotState) (c : String)
    (uid : Int) (i : Instant) :
    st.teamUserIds ⊆ (stepCommandQuick cfg st c uid i).teamUserIds := by
  have hm := maybe_record_team_mono cfg st c uid
  simp only [stepCommandQuick]
  split_ifs <;>
    first
    | exact hm
    | (simp only [cancel_all_fields, set_last_auth_msg]; exact hm)

/-- After any event, every token is either the original one or the token
of the instant of the event. -/
theorem step_token_cases (cfg : Config) (st : BotState) (e : TEv) (k : Key) :
    lookupA (step cfg st e).debounceToken k = lookupA st.debounceToken k ∨
      lookupA (step cfg st e).debounceToken k = some e.inst.abs := by
  rcases e with ⟨i, ev⟩
  cases ev with
  | inbound c ct uid => exact stepInbound_token cfg st c ct uid i k
  | commandQuick c uid => exact stepCommandQuick_token cfg st c uid i k
  | commandOther c uid =>
    left
    simp only [step]
    rw [(maybe_record_fields cfg st c uid).2.2.2.2.2.2.1]
  | fire k2 tok =>
    left
    simp only [step]
    rw [(stepFire_fields cfg st k2 tok i).2.2.2.2.1]

/-- Each event appends at most one dispatch, stamped with the instant of
the event. -/
theorem step_dispatches_cases (cfg : Config) (st : BotState) (e : TEv) :
    (step cfg st e).dispatches = st.dispatches ∨
      ∃ k, (step cfg st e).dispatches = (k, e.inst.abs) :: st.dispatches := by
  rcases e with ⟨i, ev⟩
  cases ev with
  | inbound c ct uid =>
    left
    exact (stepInbound_fields cfg st c ct uid i).2.2.2.2.2
  | commandQuick c uid =>
    left
    exact (stepCommandQuick_fields cfg st c uid i).2.2.2.2.2
  | commandOther c uid =>
    left
    simp only [step]
    exact (maybe_record_fields cfg st c uid).2.2.2.2.2.2.2.2.2.2.2.2
  | fire k2 tok =>
    rcases stepFire_dispatches cfg st k2 tok i with h | ⟨h1, _, _, _⟩
    · left; exact h
    · right; exact ⟨k2, h1⟩

/-- No event removes a staff identity. -/
theorem step_team_mono (cfg : Config) (st : BotState) (e : TEv) :
    st.teamUserIds ⊆ (step cfg st e).teamUserIds := by
  rcases e with ⟨i, ev⟩
  cases ev with
  | inbound c ct uid => exact stepInbound_team_mono cfg st c ct uid i
  | commandQuick c uid => exact stepCommandQuick_team_mono cfg st c uid i
  | commandOther c uid => exact maybe_record_team_mono cfg st c uid
  | fire k2 tok =>
    simp only [step]
    rw [(stepFire_fields cfg st k2 tok i).1]
    exact List.Subset.refl _

/-- No event reopens a finished task. -/
theorem step_fired_mono (cfg : Config) (st : BotState) (e : TEv) :
    st.fired ⊆ (step cfg st e).fired := by
  rcases e with ⟨i, ev⟩
  cases ev with
  | inbound c ct uid =>
    simp only [step]
    rw [(stepInbound_fields cfg st c ct uid i).2.2.2.1]
    exact List.Subset.refl _
  | commandQuick c uid =>
    simp only [step]
    rw [(stepCommandQuick_fields cfg st c uid i).2.2.2.1]
    exact List.Subset.refl _
  | commandOther c uid =>
    simp only [step]
    rw [(maybe_record_fields cfg st c uid).2.2.2.2.2.2.2.2.2.2.1]
    exact List.Subset.refl _
  | fire k2 tok => exact stepFire_fired_mono cfg st k2 tok i

/-- Each event grows the attempt log of a fixed key and token only at the
resumption of that not-yet-finished task, finishing it. -/
theorem step_attemptsFor (cfg : Config) (st : BotState) (e : TEv) (k0 : Key) (tok0 : Nat) :
    attemptsFor (step cfg st e) k0 tok0 = attemptsFor st k0 tok0 ∨
      (¬ (⟨k0, tok0⟩ : Task) ∈ st.fired ∧
        (⟨k0, tok0⟩ : Task) ∈ (step cfg st e).fired ∧
        attemptsFor (step cfg st e) k0 tok0 = (k0, tok0, e.inst.abs) :: attemptsFor st k0 tok0) := by
  rcases e with ⟨i, ev⟩
  cases ev with
  | inbound c ct uid =>
    left
    have h := stepInbound_fields cfg st c ct uid i
    simp [step, attemptsFor, h.2.2.2.2.1]
  | commandQuick c uid =>
    left
    have h := stepCommandQuick_fields cfg st c uid i
    simp [step, attemptsFor, h.2.2.2.2.1]
  | commandOther c uid =>
    left
    have h := maybe_record_fields cfg st c uid
    simp only [step]
    simp [attemptsFor, h.2.2.2.2.2.2.2.2.2.2.2.1]
  | fire k2 tok => exact stepFire_attemptsFor cfg st k2 tok i k0 tok0

/-- Processing no events is the identity. -/
theorem run_nil (cfg : Config) (st : BotState) : run cfg st [] = st := rfl

/-- Processing a trace one event at a time. -/
theorem run_cons (cfg : Config) (st : BotState) (e : TEv) (evs : List TEv) :
    run cfg st (e :: evs) = run cfg (step cfg st e) evs := rfl

/-- Along a trace of strictly increasing instants, a token bounded below
stays bounded below: new tokens are always the instant of their event. -/
theorem run_token_lb (cfg : Config) (k : Key) (b : Nat) :
    ∀ (evs : List TEv) (st : BotState) (t0 : Nat),
      (∀ v, lookupA st.debounceToken k = some v → b ≤ v) →
      b ≤ t0 → timesOk t0 evs = true →
      ∀ v, lookupA (run cfg st evs).debounceToken k = some v → b ≤ v := by
  intro evs
  induction evs with
  | nil =>
    intro st t0 h hb _ v hv
    exact h v hv
  | cons e rest ih =>
    intro st t0 h hb ht v hv
    have ht2 : t0 < e.inst.abs ∧ timesOk e.inst.abs rest = true := by
      simpa [timesOk] using ht
    refine ih (step cfg st e) e.inst.abs ?_ (le_of_lt (lt_of_le_of_lt hb ht2.1)) ht2.2 v hv
    intro v2 hv2
    rcases step_token_cases cfg st e k with hc | hc
    · exact h v2 (hc ▸ hv2)
    · rw [hc] at hv2
      injection hv2 with hv3
      omega

/-- Along any trace the staff set only grows. -/
theorem run_team_mono (cfg : Config) :
    ∀ (evs : List TEv) (st : BotState), st.teamUserIds ⊆ (run cfg st evs).teamUserIds := by
  intro evs
  induction evs with
  | nil =>
    intro st
    exact List.Subset.refl _
  | cons e rest ih =>
    intro st
    exact (step_team_mono cfg st e).trans (ih (step cfg st e))

/-- Along any trace the finished-task list only grows. -/
theorem run_fired_mono (cfg : Config) :
    ∀ (evs : List TEv) (st : BotState), st.fired ⊆ (run cfg st evs).fired := by
  intro evs
  induction evs with
  | nil =>
    intro st
    exact List.Subset.refl _
  | cons e rest ih =>
    intro st
    exact (step_fired_mono cfg st e).trans (ih (step cfg st e))

/-- An authorized identity stays authorized along any trace. -/
theorem run_auth_mono (cfg : Config) (evs : List TEv) (st : BotState) (uid : Int)
    (h : is_authorized_user cfg st uid = true) :
    is_authorized_user cfg (run cfg st evs) uid = true := by
  simp only [is_authorized_user, Bool.or_eq_true, decide_eq_true_eq] at h ⊢
  rcases h with h | h
  · left
    exact run_team_mono cfg evs st h
  · right
    exact h

/-- A task already armed attempts delivery at most once along any trace. -/
theorem run_attempts_once (cfg : Config) (k0 : Key) (tok0 : Nat) :
    ∀ (evs : List TEv) (st : BotState),
      ((⟨k0, tok0⟩ : Task) ∈ st.fired ∨ attemptsFor st k0 tok0 = []) →
      (attemptsFor st k0 tok0).length ≤ 1 →
      (attemptsFor (run cfg st evs) k0 tok0).length ≤ 1 := by
  intro evs
  induction evs with
  | nil =>
    intro st _ h2
    exact h2
  | cons e rest ih =>
    intro st h1 h2
    have hnext1 : (⟨k0, tok0⟩ : Task) ∈ (step cfg st e).fired ∨
        attemptsFor (step cfg st e) k0 tok0 = [] := by
      rcases step_attemptsFor cfg st e k0 tok0 with h | ⟨hnf, hf, _⟩
      · rcases h1 with hf | he
        · left
          exact step_fired_mono cfg st e hf
        · right
          rw [h, he]
      · left
        exact hf
    have hnext2 : (attemptsFor (step cfg st e) k0 tok0).length ≤ 1 := by
      rcases step_attemptsFor cfg st e k0 tok0 with h | ⟨hnf, hf, hgrow⟩
      · rw [h]
        exact h2
      · rcases h1 with hf2 | he
        · exact absurd hf2 hnf
        · rw [hgrow, he]
          simp
    exact ih (step cfg st e) hnext1 hnext2

/-- Along a trace of strictly increasing instants, dispatch stamps are
pairwise distinct: each event dispatches at most once, at its own instant. -/
theorem run_dispatch_distinct (cfg : Config) :
    ∀ (evs : List TEv) (st : BotState) (t0 : Nat),
      timesOk t0 evs = true →
      (∀ d ∈ st.dispatches, d.2 ≤ t0) →
      st.dispatches.Pairwise (fun a b => a.2 ≠ b.2) →
      (run cfg st evs).dispatches.Pairwise (fun a b => a.2 ≠ b.2) := by
  intro evs
  induction evs with
  | nil =>
    intro st t0 _ _ hp
    exact hp
  | cons e rest ih =>
    intro st t0 ht hbd hp
    have ht2 : t0 < e.inst.abs ∧ timesOk e.inst.abs rest = true := by
      simpa [timesOk] using ht
    refine ih (step cfg st e) e.inst.abs ht2.2 ?_ ?_
    · intro d hd
      rcases step_dispatches_cases cfg st e with h | ⟨k2, h⟩
      · rw [h] at hd
        exact le_of_lt (lt_of_le_of_lt (hbd d hd) ht2.1)
      · rw [h] at hd
        rcases List.mem_cons.mp hd with hd | hd
        · rw [hd]
        · exact le_of_lt (lt_of_le_of_lt (hbd d hd) ht2.1)
    · rcases step_dispatches_cases cfg st e with h | ⟨k2, h⟩
      · rw [h]
        exact hp
      · rw [h]
        refine List.Pairwise.cons ?_ hp
        intro d hd
        have : d.2 < e.inst.abs := lt_of_le_of_lt (hbd d hd) ht2.1
        omega

/-- A fire armed before a fresh arming of its key can never dispatch after
that arming, regardless of the events in between. -/
theorem run_fire_stale (cfg : Config) (k : Key) (tok t2 : Nat) (evs : List TEv) (st : BotState)
    (htok : lookupA st.debounceToken k = some t2) (hlt : tok < t2)
    (ht : timesOk t2 evs = true) (jf : Instant) :
    (step cfg (run cfg st evs) ⟨jf, .fire k tok⟩).dispatches = (run cfg st evs).dispatches ∧
    (step cfg (run cfg st evs) ⟨jf, .fire k tok⟩).chatLastResponse =
      (run cfg st evs).chatLastResponse ∧
    (step cfg (run cfg st evs) ⟨jf, .fire k tok⟩).closedSentAM = (run cfg st evs).closedSentAM ∧
    (step cfg (run cfg st evs) ⟨jf, .fire k tok⟩).closedSentPM = (run cfg st evs).closedSentPM := by
  have hlb := run_token_lb cfg k t2 evs st t2
    (fun v hv => by rw [htok] at hv; injection hv with h; omega) (le_refl t2) ht
  have hne : lookupA (run cfg st evs).debounceToken k ≠ some tok := by
    intro hx
    have := hlb tok hx
    omega
  have hs := stepFire_stale cfg (run cfg st evs) k tok jf hne
  simpa [step] using hs

/-- Authorization is monotone in the staff set. -/
theorem is_auth_mono (cfg : Config) {st st2 : BotState}
    (hsub : st.teamUserIds ⊆ st2.teamUserIds) (uid : Int)
    (h : is_authorized_user cfg st uid = true) : is_authorized_user cfg st2 uid = true := by
  simp only [is_authorized_user, Bool.or_eq_true, decide_eq_true_eq] at h ⊢
  rcases h with h | h
  · left
    exact hsub h
  · right
    exact h

/-- A qualifying non-authorized group message reduces the handler to an
arming of the routed period. -/
theorem stepInbound_arm (cfg : Config) (st : BotState) (c : String) (ct : ChatType)
    (uid : Int) (i : Instant) (P : String)
    (hgr : isGroupType ct = true)
    (hsil : ¬ c ∈ cfg.silentGroupIds)
    (hauthF : is_authorized_user cfg (track_inbound cfg st c ct uid i) uid = false)
    (hla : lookupA st.lastAuthMsgAt c = none)
    (hroute : routesTo i = some P) :
    stepInbound cfg st c ct uid i =
      schedule_buffered (track_inbound cfg st c ct uid i) c P i := by
  have htla : lookupA (track_inbound cfg st c ct uid i).lastAuthMsgAt c = none := by
    rw [(track_inbound_fields cfg st c ct uid i).2.2.1]
    exact hla
  have hblock : authorized_initiated_on_or_before_cutoff_today
      (track_inbound cfg st c ct uid i) c i = false := by
    unfold authorized_initiated_on_or_before_cutoff_today
    rw [htla]
  unfold routesTo at hroute
  simp only [stepInbound]
  split at hroute
  next hw =>
    injection hroute with hP
    subst hP
    simp [hsil, hauthF, hw, hgr]
  next hw =>
    split at hroute
    next hl =>
      injection hroute with hP
      subst hP
      simp [hsil, hauthF, hw, hl, hgr]
    next hl =>
      split at hroute
      next ho =>
        split at hroute
        next hbc =>
          injection hroute with hP
          subst hP
          simp [hsil, hauthF, hw, hl, ho, hbc, hgr, hblock]
        next hbc =>
          exact absurd hroute (by simp)
      next ho =>
        split at hroute
        next hpm =>
          injection hroute with hP
          subst hP
          simp [hsil, hauthF, hw, hl, ho, hpm, hgr]
        next hpm =>
          split at hroute
          next ham =>
            injection hroute with hP
            subst hP
            simp [hsil, hauthF, hw, hl, ho, hpm, ham, hgr]
          next ham =>
            exact absurd hroute (by simp)

/-- An authorized message in a chat that is not command-only reduces the
handler to a staff stamp plus the cancellation of every pending prompt. -/
theorem stepInbound_staff (cfg : Config) (st : BotState) (c : String) (ct : ChatType)
    (uid : Int) (i : Instant)
    (hsil : ¬ c ∈ cfg.silentGroupIds)
    (hauth : is_authorized_user cfg (track_inbound cfg st c ct uid i) uid = true) :
    stepInbound cfg st c ct uid i =
      cancel_all_pending_for_chat
        (set_last_auth_msg (track_inbound cfg st c ct uid i) c i) c i.abs := by
  simp only [stepInbound]
  simp [hsil, hauth]

/-- An authorized quick-reply command reduces to the same staff sequence. -/
theorem stepCommandQuick_staff (cfg : Config) (st : BotState) (c : String) (uid : Int)
    (i : Instant)
    (hauth : is_authorized_user cfg (maybe_record_team_member cfg st c uid) uid = true) :
    stepCommandQuick cfg st c uid i =
      cancel_all_pending_for_chat
        (set_last_auth_msg (maybe_record_team_member cfg st c uid) c i) c i.abs := by
  simp only [stepCommandQuick]
  simp [hauth]

/-- A message in a direct chat never arms a timer and never dispatches. -/
theorem stepInbound_private (cfg : Config) (st : BotState) (c : String) (ct : ChatType)
    (uid : Int) (i : Instant) (hct : isGroupType ct = false) :
    (stepInbound cfg st c ct uid i).createdTasks = st.createdTasks ∧
    (stepInbound cfg st c ct uid i).dispatches = st.dispatches := by
  have ht := track_inbound_fields cfg st c ct uid i
  simp only [stepInbound]
  split_ifs <;>
    simp_all [cancel_all_fields, set_last_auth_msg, ht.2.2.2.2.2.2.1,
              ht.2.2.2.2.2.2.2.2.2.2]

/-- Every arm still ahead in a burst trace lies strictly in the future. -/
theorem burst_arms_future (cfg : Config) (c P : String) :
    ∀ (evs : List TEv) (arms : List (Instant × Int)) (t0 : Nat),
      burstOk cfg c P arms evs = true → timesOk t0 evs = true →
      ∀ a ∈ arms, t0 < a.1.abs := by
  intro evs
  induction evs with
  | nil =>
    intro arms t0 hb _ a ha
    cases arms with
    | nil => cases ha
    | cons a2 rest2 => simp [burstOk] at hb
  | cons e rest ih =>
    intro arms t0 hb ht a ha
    rcases e with ⟨j, ev⟩
    have ht2 : t0 < j.abs ∧ timesOk j.abs rest = true := by
      simpa [timesOk] using ht
    cases ev with
    | fire k tok =>
      have hb2 : burstOk cfg c P arms rest = true := by
        simpa [burstOk] using hb
      exact lt_trans ht2.1 (ih arms j.abs hb2 ht2.2 a ha)
    | inbound c2 ct u2 =>
      cases arms with
      | nil => simp [burstOk] at hb
      | cons a2 arms2 =>
        rcases a2 with ⟨ia, uida⟩
        simp [burstOk] at hb
        obtain ⟨⟨⟨⟨⟨⟨hj, _⟩, _⟩, _⟩, _⟩, _⟩, hb2⟩ := hb
        rcases List.mem_cons.mp ha with ha | ha
        · rw [ha]
          simpa [← hj] using ht2.1
        · exact lt_trans ht2.1 (ih arms2 j.abs hb2 ht2.2 a ha)
    | commandQuick c2 u2 => simp [burstOk] at hb
    | commandOther c2 u2 => simp [burstOk] at hb

/-- Main burst invariant: along a burst trace for a key, every dispatch of
that key is stamped exactly one flood buffer after the last arm. -/
theorem burst_master (cfg : Config) (c P : String) (tN : Nat)
    (hcs : ¬ c ∈ cfg.silentGroupIds) (hca : ¬ c ∈ cfg.aisTeamChatIds) :
    ∀ (evs : List TEv) (arms : List (Instant × Int)) (st : BotState) (t0 : Nat) (lp : Option Nat),
      burstOk cfg c P arms evs = true →
      timesOk t0 evs = true →
      armChainOk lp arms = true →
      (∀ v, lp = some v → v ≤ t0) →
      lastT lp arms = some tN →
      st.teamUserIds = cfg.preauth →
      lookupA st.lastAuthMsgAt c = none →
      lookupA st.debounceToken (c, P) = lp →
      (∀ d ∈ st.dispatches, d.1 = (c, P) → d.2 = tN + FLOOD_BUFFER_SECONDS) →
      ∀ d ∈ (run cfg st evs).dispatches, d.1 = (c, P) → d.2 = tN + FLOOD_BUFFER_SECONDS := by
  intro evs
  induction evs with
  | nil =>
    intro arms st t0 lp _ _ _ _ _ _ _ _ hdisp
    simpa [run] using hdisp
  | cons e rest ih =>
    intro arms st t0 lp hb ht hchain hlpb hlast hteam hla htok hdisp
    rcases e with ⟨j, ev⟩
    have ht2 : t0 < j.abs ∧ timesOk j.abs rest = true := by
      simpa [timesOk] using ht
    rw [run_cons]
    cases ev with
    | commandQuick c2 u2 => simp [burstOk] at hb
    | commandOther c2 u2 => simp [burstOk] at hb
    | fire k2 tok =>
      have hb2 : burstOk cfg c P arms rest = true := by
        simpa [burstOk] using hb
      have hfields := stepFire_fields cfg st k2 tok j
      have hstep : step cfg st ⟨j, Ev.fire k2 tok⟩ = stepFire cfg st k2 tok j := rfl
      refine ih arms (step cfg st ⟨j, Ev.fire k2 tok⟩) j.abs lp hb2 ht2.2 hchain ?_ hlast ?_ ?_ ?_ ?_
      · intro v hv
        exact le_of_lt (lt_of_le_of_lt (hlpb v hv) ht2.1)
      · rw [hstep, hfields.1, hteam]
      · rw [hstep, hfields.2.2.2.1, hla]
      · rw [hstep, hfields.2.2.2.2.1, htok]
      · rw [hstep]
        rcases stepFire_dispatches cfg st k2 tok j with h | ⟨h1, h2, h3, _⟩
        · rw [h]
          exact hdisp
        · rw [h1]
          intro d hd
          rcases List.mem_cons.mp hd with hd | hd
          · intro hdk
            rw [hd] at hdk
            simp only [] at hdk
            subst hdk
            have hlp : lp = some tok := by rw [← htok, h2]
            rw [hd]
            simp only []
            cases arms with
            | nil =>
              have hlp2 : lp = some tN := by simpa [lastT] using hlast
              rw [hlp2] at hlp
              injection hlp with he
              omega
            | cons a2 arms2 =>
              exfalso
              have hfut := burst_arms_future cfg c P rest (a2 :: arms2) j.abs hb2 ht2.2 a2
                (List.mem_cons_self _ _)
              rw [hlp] at hchain
              simp [armChainOk] at hchain
              have hch := hchain.1
              omega
          · exact hdisp d hd
    | inbound c2 ct u2 =>
      cases arms with
      | nil => simp [burstOk] at hb
      | cons a2 arms2 =>
        rcases a2 with ⟨ia, uida⟩
        simp [burstOk] at hb
        obtain ⟨⟨⟨⟨⟨⟨hj, hc2⟩, hu⟩, hgr⟩, hpre⟩, hr⟩, hb2⟩ := hb
        subst hj
        subst hc2
        subst hu
        have hteamEq : (track_inbound cfg st c2 ct u2 j).teamUserIds = st.teamUserIds :=
          track_inbound_team_notais cfg st c2 ct u2 j hca
        have hauthF : is_authorized_user cfg (track_inbound cfg st c2 ct u2 j) u2 = false := by
          simp [is_authorized_user, hteamEq, hteam, hpre]
        have harm := stepInbound_arm cfg st c2 ct u2 j P hgr hcs hauthF hla hr
        have hstep : step cfg st ⟨j, Ev.inbound c2 ct u2⟩ = stepInbound cfg st c2 ct u2 j := rfl
        have hsf := schedule_buffered_fields (track_inbound cfg st c2 ct u2 j) c2 P j
        have htf := track_inbound_fields cfg st c2 ct u2 j
        refine ih arms2 (step cfg st ⟨j, Ev.inbound c2 ct u2⟩) j.abs (some j.abs) hb2 ht2.2
          ?_ ?_ ?_ ?_ ?_ ?_ ?_
        · simp [armChainOk] at hchain
          exact hchain.2
        · intro v hv
          injection hv with hv2
          omega
        · simpa [lastT] using hlast
        · rw [hstep, harm, hsf.1, hteamEq, hteam]
        · rw [hstep, harm, hsf.2.2.2.2.2.1, htf.2.2.1, hla]
        · rw [hstep, harm, schedule_buffered_token]
          simp
        · rw [hstep, harm]
          intro d hd
          rw [hsf.2.2.2.2.2.2.2.2.2, htf.2.2.2.2.2.2.2.2.2.2] at hd
          exact hdisp d hd

/-- A list with pairwise distinct stamps holds at most one entry of a key
whose entries all carry one fixed stamp. -/
theorem filter_singleton_of_same (l : List (Key × Nat)) (c P : String) (t : Nat)
    (hall : ∀ d ∈ l, d.1 = (c, P) → d.2 = t)
    (hp : l.Pairwise (fun a b => a.2 ≠ b.2)) :
    (l.filter (fun d => decide (d.1 = (c, P)))).length ≤ 1 := by
  have hsub : (l.filter (fun d => decide (d.1 = (c, P)))).Sublist l := List.filter_sublist l
  have hp2 := hp.sublist hsub
  rcases hfl : l.filter (fun d => decide (d.1 = (c, P))) with _ | ⟨x, xs⟩
  · simp [hfl]
  rcases xs with _ | ⟨y, ys⟩
  · simp [hfl]
  exfalso
  have hx : x ∈ l.filter (fun d => decide (d.1 = (c, P))) := by
    rw [hfl]
    exact List.mem_cons_self _ _
  have hy : y ∈ l.filter (fun d => decide (d.1 = (c, P))) := by
    rw [hfl]
    exact List.mem_cons_of_mem _ (List.mem_cons_self _ _)
  have hxl := List.mem_of_mem_filter hx
  have hyl := List.mem_of_mem_filter hy
  have hxp : x.1 = (c, P) := by simpa using List.of_mem_filter hx
  have hyp2 : y.1 = (c, P) := by simpa using List.of_mem_filter hy
  have hxt := hall x hxl hxp
  have hyt := hall y hyl hyp2
  rw [hfl] at hp2
  have hne := (List.pairwise_cons.mp hp2).1 y (List.mem_cons_self _ _)
  exact hne (by rw [hxt, hyt])

/-- A sender in a designated team chat lands in the staff set. -/
theorem maybe_record_mem (cfg : Config) (st : BotState) (c : String) (uid : Int)
    (hc : c ∈ cfg.aisTeamChatIds) :
    uid ∈ (maybe_record_team_member cfg st c uid).teamUserIds := by
  unfold maybe_record_team_member
  rw [if_pos (by simpa using hc)]
  split
  next h => simpa using h
  next h => simp

/-- The handler ends with exactly the staff set of its tracking stage. -/
theorem stepInbound_team_eq (cfg : Config) (st : BotState) (c : String) (ct : ChatType)
    (uid : Int) (i : Instant) :
    (stepInbound cfg st c ct uid i).teamUserIds =
      (track_inbound cfg st c ct uid i).teamUserIds := by
  simp only [stepInbound]
  split_ifs <;>
    first
    | rfl
    | simp [cancel_all_fields, set_last_auth_msg, schedule_buffered_fields]

/-- The tracking stage either keeps the chat registry or registers the
group chat of the message. -/
theorem track_known_cases (cfg : Config) (st : BotState) (c : String) (ct : ChatType)
    (uid : Int) (i : Instant) :
    (track_inbound cfg st c ct uid i).knownGroupChats = st.knownGroupChats ∨
      (isGroupType ct = true ∧
        (track_inbound cfg st c ct uid i).knownGroupChats = c :: st.knownGroupChats) := by
  unfold track_inbound maybe_record_team_member
  split
  next h =>
    right
    refine ⟨(Bool.and_eq_true_iff.mp h).1, ?_⟩
    split <;> simp
  next h =>
    left
    split <;> simp

/-- The handler ends with exactly the chat registry of its tracking stage. -/
theorem stepInbound_known_eq (cfg : Config) (st : BotState) (c : String) (ct : ChatType)
    (uid : Int) (i : Instant) :
    (stepInbound cfg st c ct uid i).knownGroupChats =
      (track_inbound cfg st c ct uid i).knownGroupChats := by
  simp only [stepInbound]
  split_ifs <;>
    first
    | rfl
    | simp [cancel_all_fields, set_last_auth_msg, schedule_buffered_fields]

/-- The quick-reply command handler never registers a chat. -/
theorem stepCommandQuick_known (cfg : Config) (st : BotState) (c : String) (uid : Int)
    (i : Instant) :
    (stepCommandQuick cfg st c uid i).knownGroupChats = st.knownGroupChats := by
  have hm := maybe_record_fields cfg st c uid
  simp only [stepCommandQuick]
  split_ifs <;> simp [cancel_all_fields, set_last_auth_msg, hm.1]

/-- A resumption for an unregistered chat never dispatches. -/
theorem stepFire_unknown (cfg : Config) (st : BotState) (k : Key) (tok : Nat) (i : Instant)
    (hkn : ¬ k.1 ∈ st.knownGroupChats) :
    (stepFire cfg st k tok i).dispatches = st.dispatches := by
  have hb := buffer_unknown cfg st k.1 k.2 tok i hkn
  simp only [stepFire, clear_debounce]
  split_ifs <;> simp [hb]

/-- Along a trace with no group message for a chat, the chat never enters
the registry and never receives a dispatch. -/
theorem run_no_group_no_dispatch (cfg : Config) (c : String) :
    ∀ (evs : List TEv) (st : BotState),
      ¬ c ∈ st.knownGroupChats →
      (∀ e ∈ evs, noGroupInbound c e = true) →
      ¬ c ∈ (run cfg st evs).knownGroupChats ∧
        dispatchesFor (run cfg st evs) c = dispatchesFor st c := by
  intro evs
  induction evs with
  | nil =>
    intro st hkn _
    exact ⟨hkn, rfl⟩
  | cons e rest ih =>
    intro st hkn hevs
    rcases e with ⟨j, ev⟩
    have hnext : ¬ c ∈ (step cfg st ⟨j, ev⟩).knownGroupChats ∧
        dispatchesFor (step cfg st ⟨j, ev⟩) c = dispatchesFor st c := by
      cases ev with
      | inbound c2 ct2 u2 =>
        have hng : noGroupInbound c ⟨j, Ev.inbound c2 ct2 u2⟩ = true :=
          hevs _ (List.mem_cons_self _ _)
        have hng0 : ¬ c2 = c ∨ isGroupType ct2 = false := by
          simpa [noGroupInbound] using hng
        have hng2 : ¬ (c2 = c ∧ isGroupType ct2 = true) := by
          rintro ⟨h1, h2⟩
          rcases hng0 with h | h
          · exact h h1
          · rw [h] at h2
            simp at h2
        have hknown := stepInbound_known_eq cfg st c2 ct2 u2 j
        have hdd := (stepInbound_fields cfg st c2 ct2 u2 j).2.2.2.2.2
        constructor
        · rw [show step cfg st ⟨j, Ev.inbound c2 ct2 u2⟩ = stepInbound cfg st c2 ct2 u2 j
            from rfl, hknown]
          rcases track_known_cases cfg st c2 ct2 u2 j with h | ⟨hgr, h⟩
          · rw [h]
            exact hkn
          · rw [h]
            intro hmem
            rcases List.mem_cons.mp hmem with hmem | hmem
            · exact hng2 ⟨hmem.symm, hgr⟩
            · exact hkn hmem
        · rw [show step cfg st ⟨j, Ev.inbound c2 ct2 u2⟩ = stepInbound cfg st c2 ct2 u2 j
            from rfl]
          simp [dispatchesFor, hdd]
      | commandQuick c2 u2 =>
        refine ⟨?_, ?_⟩
        · rw [show step cfg st ⟨j, Ev.commandQuick c2 u2⟩ = stepCommandQuick cfg st c2 u2 j
            from rfl, stepCommandQuick_known]
          exact hkn
        · rw [show step cfg st ⟨j, Ev.commandQuick c2 u2⟩ = stepCommandQuick cfg st c2 u2 j
            from rfl]
          simp [dispatchesFor, (stepCommandQuick_fields cfg st c2 u2 j).2.2.2.2.2]
      | commandOther c2 u2 =>
        have hm := maybe_record_fields cfg st c2 u2
        refine ⟨?_, ?_⟩
        · rw [show step cfg st ⟨j, Ev.commandOther c2 u2⟩ =
              maybe_record_team_member cfg st c2 u2 from rfl, hm.1]
          exact hkn
        · rw [show step cfg st ⟨j, Ev.commandOther c2 u2⟩ =
              maybe_record_team_member cfg st c2 u2 from rfl]
          simp [dispatchesFor, hm.2.2.2.2.2.2.2.2.2.2.2.2]
      | fire k2 tok =>
        have hkeq : step cfg st ⟨j, Ev.fire k2 tok⟩ = stepFire cfg st k2 tok j := rfl
        refine ⟨?_, ?_⟩
        · rw [hkeq, (stepFire_fields cfg st k2 tok j).2.1]
          exact hkn
        · rw [hkeq]
          by_cases hc2 : k2.1 = c
          · have : ¬ k2.1 ∈ st.knownGroupChats := by
              rw [hc2]
              exact hkn
            simp [dispatchesFor, stepFire_unknown cfg st k2 tok j this]
          · rcases stepFire_dispatches cfg st k2 tok j with h | ⟨h1, _, _, _⟩
            · simp [dispatchesFor, h]
            · rw [dispatchesFor, h1]
              rw [List.filter_cons_of_neg]
              · rfl
              · simp [hc2]
    have hrest : ∀ e2 ∈ rest, noGroupInbound c e2 = true := by
      intro e2 he2
      exact hevs e2 (List.mem_cons_of_mem _ he2)
    rw [run_cons]
    rcases ih (step cfg st ⟨j, ev⟩) hnext.1 hrest with ⟨h1, h2⟩
    exact ⟨h1, by rw [h2, hnext.2]⟩

/-- A basic configuration used by concrete scenarios: no team chats, no
command-only chats, identity 77 preloaded as staff, transport succeeding. -/
def exCfg : Config :=
  { aisTeamChatIds := []
    silentGroupIds := []
    preauth := [77]
    sendOk := fun _ _ => true
    sendOkBroadcast := fun _ _ => true }

/-- C5: the office-state predicates are closed intervals: on a weekday,
isOpen holds exactly for open <= t <= close, isBeforeCutoff exactly for
t <= cutoff, isLunch exactly for lunch-start <= t <= lunch-end; at a time
exactly on the open, close or cutoff boundary the predicate is true and one
minute outside it flips; on weekends isOpen is false. -/
theorem C5_office_state_boundaries :
    (∀ i : Instant, is_weekend i = false →
      (((is_office_open i).1 = true ↔
          WEEKDAY_START.toSec ≤ i.tod.toSec ∧ i.tod.toSec ≤ WEEKDAY_END.toSec) ∧
        ((is_office_open i).2 = true ↔ i.tod.toSec ≤ WEEKDAY_CUTOFF.toSec))) ∧
    (∀ i : Instant,
      (is_lunch_time i = true ↔
        LUNCH_START.toSec ≤ i.tod.toSec ∧ i.tod.toSec ≤ LUNCH_END.toSec)) ∧
    (∀ i : Instant, is_weekend i = true → is_office_open i = (false, false)) ∧
    (is_office_open ⟨2, ⟨9, 0, 0⟩, "2026-01-07", 0⟩).1 = true ∧
    (is_office_open ⟨2, ⟨8, 59, 0⟩, "2026-01-07", 0⟩).1 = false ∧
    (is_office_open ⟨2, ⟨17, 0, 0⟩, "2026-01-07", 0⟩).1 = true ∧
    (is_office_open ⟨2, ⟨17, 1, 0⟩, "2026-01-07", 0⟩).1 = false ∧
    (is_office_open ⟨2, ⟨16, 30, 0⟩, "2026-01-07", 0⟩).2 = true ∧
    (is_office_open ⟨2, ⟨16, 31, 0⟩, "2026-01-07", 0⟩).2 = false ∧
    is_lunch_time ⟨2, ⟨12, 30, 0⟩, "2026-01-07", 0⟩ = true ∧
    is_lunch_time ⟨2, ⟨12, 29, 0⟩, "2026-01-07", 0⟩ = false ∧
    is_lunch_time ⟨2, ⟨13, 30, 0⟩, "2026-01-07", 0⟩ = true ∧
    is_lunch_time ⟨2, ⟨13, 31, 0⟩, "2026-01-07", 0⟩ = false ∧
    (is_office_open ⟨5, ⟨10, 0, 0⟩, "2026-01-10", 0⟩).1 = false := by
  refine ⟨?_, ?_, ?_, ?_, ?_, ?_, ?_, ?_, ?_, ?_, ?_, ?_, ?_, ?_⟩
  · intro i hw
    unfold is_office_open todLe
    rw [hw]
    simp
  · intro i
    unfold is_lunch_time todLe
    simp
  · intro i hw
    unfold is_office_open
    rw [hw]
    rfl
  all_goals decide

/-- C5 witness: the characterizations instantiated on a Wednesday morning
and on a Saturday. -/
theorem C5_office_state_boundaries_witness :
    (((is_office_open ⟨2, ⟨10, 0, 0⟩, "2026-01-07", 0⟩).1 = true ↔
        WEEKDAY_START.toSec ≤ (Tod.mk 10 0 0).toSec ∧
          (Tod.mk 10 0 0).toSec ≤ WEEKDAY_END.toSec) ∧
      ((is_office_open ⟨2, ⟨10, 0, 0⟩, "2026-01-07", 0⟩).2 = true ↔
        (Tod.mk 10 0 0).toSec ≤ WEEKDAY_CUTOFF.toSec)) ∧
    (is_lunch_time ⟨2, ⟨13, 0, 0⟩, "2026-01-07", 0⟩ = true ↔
      LUNCH_START.toSec ≤ (Tod.mk 13 0 0).toSec ∧
        (Tod.mk 13 0 0).toSec ≤ LUNCH_END.toSec) ∧
    is_office_open ⟨5, ⟨10, 0, 0⟩, "2026-01-10", 0⟩ = (false, false) := by
  refine ⟨C5_office_state_boundaries.1 ⟨2, ⟨10, 0, 0⟩, "2026-01-07", 0⟩ (by decide),
    C5_office_state_boundaries.2.1 ⟨2, ⟨13, 0, 0⟩, "2026-01-07", 0⟩,
    C5_office_state_boundaries.2.2.1 ⟨5, ⟨10, 0, 0⟩, "2026-01-10", 0⟩ (by decide)⟩

/-- C6: after mark_sent records a send at time T, already_sent with the
default 7200 second window returns true for every query while less than the
window has elapsed, in particular twice in immediate succession, and
returns false once the window has elapsed; already_sent mutates nothing, so
repeated calls agree. -/
theorem C6_cooldown_idempotence (st : BotState) (c tag : String) (T t window : Nat)
    (hT : T ≤ t) :
    (already_sent (mark_sent st c tag T) c tag window t = decide (t - T < window)) ∧
    (t - T < window → already_sent (mark_sent st c tag T) c tag window t = true) ∧
    (window ≤ t - T → already_sent (mark_sent st c tag T) c tag window t = false) := by
  have h1 : already_sent (mark_sent st c tag T) c tag window t = decide (t - T < window) := by
    unfold already_sent mark_sent
    simp [lookupA_insertA_self]
  refine ⟨h1, ?_, ?_⟩
  · intro h
    rw [h1]
    simpa using h
  · intro h
    rw [h1]
    simp
    omega

/-- C6 witness: a send recorded at second 100 reads as sent at second 200
with the default window, twice in a row, and as expired at second 7300. -/
theorem C6_cooldown_idempotence_witness :
    (100 ≤ 200 ∧
      (200 - 100 < 7200 →
        already_sent (mark_sent (initState exCfg) "g" "weekend" 100) "g" "weekend"
          7200 200 = true)) ∧
    (100 ≤ 7300 ∧
      (7200 ≤ 7300 - 100 →
        already_sent (mark_sent (initState exCfg) "g" "weekend" 100) "g" "weekend"
          7200 7300 = false)) := by
  exact ⟨⟨by decide,
      (C6_cooldown_idempotence (initState exCfg) "g" "weekend" 100 200 7200
        (by decide)).2.1⟩,
    ⟨by decide,
      (C6_cooldown_idempotence (initState exCfg) "g" "weekend" 100 7300 7200
        (by decide)).2.2⟩⟩

/-- C2: only the most recently armed token of a key can cause a dispatch:
after a fresh arming, a previously armed fire that reaches its token check,
whenever its delay elapses and whatever happens in between, is a no-op: no
message is sent and no last-sent record is written. -/
theorem C2_token_invalidation (cfg : Config) (st : BotState) (c p : String) (tok : Nat)
    (i2 : Instant) (evs : List TEv) (jf : Instant)
    (htok : tok < i2.abs) (hevs : timesOk i2.abs evs = true) :
    (step cfg (run cfg (schedule_buffered st c p i2) evs) ⟨jf, .fire (c, p) tok⟩).dispatches =
      (run cfg (schedule_buffered st c p i2) evs).dispatches ∧
    (step cfg (run cfg (schedule_buffered st c p i2) evs)
        ⟨jf, .fire (c, p) tok⟩).chatLastResponse =
      (run cfg (schedule_buffered st c p i2) evs).chatLastResponse ∧
    (step cfg (run cfg (schedule_buffered st c p i2) evs) ⟨jf, .fire (c, p) tok⟩).closedSentAM =
      (run cfg (schedule_buffered st c p i2) evs).closedSentAM ∧
    (step cfg (run cfg (schedule_buffered st c p i2) evs) ⟨jf, .fire (c, p) tok⟩).closedSentPM =
      (run cfg (schedule_buffered st c p i2) evs).closedSentPM := by
  refine run_fire_stale cfg (c, p) tok i2.abs evs (schedule_buffered st c p i2) ?_ htok hevs jf
  rw [schedule_buffered_token]
  simp

/-- C2 witness: a stale token armed at second 500 is superseded by an
arming at second 1000; its fire at second 1300 records nothing. -/
theorem C2_token_invalidation_witness :
    500 < 1000 ∧
    (step exCfg
        (run exCfg
          (schedule_buffered (initState exCfg) "g" "PM" ⟨1, ⟨0, 16, 40⟩, "2026-01-06", 1000⟩)
          [])
        ⟨⟨1, ⟨0, 21, 40⟩, "2026-01-06", 1300⟩, .fire ("g", "PM") 500⟩).dispatches =
      (run exCfg
        (schedule_buffered (initState exCfg) "g" "PM" ⟨1, ⟨0, 16, 40⟩, "2026-01-06", 1000⟩)
        []).dispatches := by
  exact ⟨by decide,
    (C2_token_invalidation exCfg (initState exCfg) "g" "PM" 500
      ⟨1, ⟨0, 16, 40⟩, "2026-01-06", 1000⟩ [] ⟨1, ⟨0, 21, 40⟩, "2026-01-06", 1300⟩
      (by decide) (by decide)).1⟩

/-- C3 (amended): outside business hours, with a staff reply recorded at
T <= t, the suppression gate used by the AM, PM and WE branches holds
exactly while t - T is under the one hour allow-threshold; from one hour on
dispatch is allowed, in particular everywhere strictly between T plus one
hour and T plus two hours, and unconditionally from two hours on. -/
theorem C3_staff_suppression_amended (st : BotState) (c : String) (i : Instant) (ts : Instant)
    (hopen : (is_office_open i).1 = false)
    (hts : lookupA st.lastAuthMsgAt c = some ts)
    (hle : ts.abs ≤ i.abs) :
    after_hours_gate st c i =
      decide (i.abs - ts.abs < AFTER_HOURS_MIN_SILENCE_FOR_SPIEL_HOURS * 3600) := by
  simp only [after_hours_gate, within_after_hours_suppression, allow_after_hours_spiel,
    last_auth_msg_age, hopen, hts, Option.map_some, AFTER_HOURS_SUPPRESSION_WINDOW_HOURS,
    AFTER_HOURS_MIN_SILENCE_FOR_SPIEL_HOURS, Bool.false_eq_true, if_false]
  rcases Nat.lt_or_ge (i.abs - ts.abs) 3600 with h1 | h1
  · have h2 : i.abs - ts.abs ≤ 2 * 3600 := by omega
    have h3 : ¬ 2 * 3600 ≤ i.abs - ts.abs := by omega
    have h4 : ¬ 1 * 3600 ≤ i.abs - ts.abs := by omega
    have h5 : i.abs - ts.abs < 1 * 3600 := by omega
    simp [h2, h3, h4, h5]
  · have h4 : 1 * 3600 ≤ i.abs - ts.abs := by omega
    have h5 : ¬ i.abs - ts.abs < 1 * 3600 := by omega
    by_cases h2 : i.abs - ts.abs ≤ 2 * 3600 <;> by_cases h3 : 2 * 3600 ≤ i.abs - ts.abs <;>
      simp [h2, h3, h4, h5]

/-- C3 witness: staff reply at second 72000, query at second 77400 on a
Tuesday evening; the gate evaluates by the amended rule, and since ninety
minutes exceed the allow-threshold it does not suppress. -/
theorem C3_staff_suppression_amended_witness :
    ((is_office_open ⟨1, ⟨21, 30, 0⟩, "2026-01-06", 77400⟩).1 = false ∧
      lookupA (set_last_auth_msg (initState exCfg) "g"
          ⟨1, ⟨20, 0, 0⟩, "2026-01-06", 72000⟩).lastAuthMsgAt "g" =
        some ⟨1, ⟨20, 0, 0⟩, "2026-01-06", 72000⟩ ∧
      (72000 : Nat) ≤ 77400) ∧
    after_hours_gate (set_last_auth_msg (initState exCfg) "g"
        ⟨1, ⟨20, 0, 0⟩, "2026-01-06", 72000⟩) "g" ⟨1, ⟨21, 30, 0⟩, "2026-01-06", 77400⟩ =
      decide ((77400 : Nat) - 72000 < AFTER_HOURS_MIN_SILENCE_FOR_SPIEL_HOURS * 3600) := by
  exact ⟨⟨by decide, by decide, by decide⟩,
    C3_staff_suppression_amended (set_last_auth_msg (initState exCfg) "g"
      ⟨1, ⟨20, 0, 0⟩, "2026-01-06", 72000⟩) "g" ⟨1, ⟨21, 30, 0⟩, "2026-01-06", 77400⟩
      ⟨1, ⟨20, 0, 0⟩, "2026-01-06", 72000⟩ (by decide) (by decide) (by decide)⟩

/-- Staff reply at 20:00, customer message at 21:25, resumption at 21:30 on
a Tuesday: the resumption falls strictly between one and two hours after
the staff reply. -/
def c3evs : List TEv :=
  [⟨⟨1, ⟨20, 0, 0⟩, "2026-01-06", 72000⟩, .inbound "g" .group 77⟩,
   ⟨⟨1, ⟨21, 25, 0⟩, "2026-01-06", 77100⟩, .inbound "g" .group 5⟩,
   ⟨⟨1, ⟨21, 30, 0⟩, "2026-01-06", 77400⟩, .fire ("g", "PM") 77100⟩]

/-- C3 counterexample: the claim says dispatch remains suppressed for all
times strictly between T plus one hour and T plus two hours after a staff
reply at T; on this trace the staff reply is recorded at 72000, the
dispatch attempt happens at 77400, strictly inside that range and outside
business hours, and the code dispatches the PM notice. -/
theorem C3_staff_suppression_counterexample :
    lookupA (run exCfg (initState exCfg) c3evs).lastAuthMsgAt "g" =
      some ⟨1, ⟨20, 0, 0⟩, "2026-01-06", 72000⟩ ∧
    72000 + AFTER_HOURS_MIN_SILENCE_FOR_SPIEL_HOURS * 3600 < 77400 ∧
    77400 < 72000 + AFTER_HOURS_SUPPRESSION_WINDOW_HOURS * 3600 ∧
    (is_office_open ⟨1, ⟨21, 30, 0⟩, "2026-01-06", 77400⟩).1 = false ∧
    (run exCfg (initState exCfg) c3evs).dispatches = [(("g", "PM"), 77400)] := by
  decide

/-- C4 (amended): when a staff user posts a plain message in a chat that is
not command-only, or invokes one of the quick-reply commands (lt, apd, mvr,
sign, emails), the debounce token of every kind-key of that conversation is
immediately replaced by a fresh one, so a pending delayed notification
armed earlier never dispatches when it fires: no message is sent and no
last-sent record is written. -/
theorem C4_staff_invalidates_amended (cfg : Config) (st : BotState) (c : String) (uid : Int)
    (e : TEv) (evs : List TEv) (p : String) (tok : Nat) (jf : Instant)
    (hp : p ∈ (["AM", "PM", "WE", "LUNCH", "CUTOFF"] : List String))
    (hauth : is_authorized_user cfg st uid = true)
    (hev : (∃ ct, e.ev = Ev.inbound c ct uid ∧ ¬ c ∈ cfg.silentGroupIds) ∨
      e.ev = Ev.commandQuick c uid)
    (htok : tok < e.inst.abs)
    (hevs : timesOk e.inst.abs evs = true) :
    lookupA (step cfg st e).debounceToken (c, p) = some e.inst.abs ∧
    (step cfg (run cfg (step cfg st e) evs) ⟨jf, .fire (c, p) tok⟩).dispatches =
      (run cfg (step cfg st e) evs).dispatches ∧
    (step cfg (run cfg (step cfg st e) evs) ⟨jf, .fire (c, p) tok⟩).chatLastResponse =
      (run cfg (step cfg st e) evs).chatLastResponse ∧
    (step cfg (run cfg (step cfg st e) evs) ⟨jf, .fire (c, p) tok⟩).closedSentAM =
      (run cfg (step cfg st e) evs).closedSentAM ∧
    (step cfg (run cfg (step cfg st e) evs) ⟨jf, .fire (c, p) tok⟩).closedSentPM =
      (run cfg (step cfg st e) evs).closedSentPM := by
  have htoken : lookupA (step cfg st e).debounceToken (c, p) = some e.inst.abs := by
    rcases e with ⟨i, ev⟩
    rcases hev with ⟨ct, hev1, hsil⟩ | hev1
    · simp only at hev1
      subst hev1
      have hauth2 : is_authorized_user cfg (track_inbound cfg st c ct uid i) uid = true :=
        is_auth_mono cfg (track_inbound_team_mono cfg st c ct uid i) uid hauth
      have hst := stepInbound_staff cfg st c ct uid i hsil hauth2
      show lookupA (stepInbound cfg st c ct uid i).debounceToken (c, p) = some i.abs
      rw [hst]
      exact cancel_all_token_mem _ c i.abs p hp
    · simp only at hev1
      subst hev1
      have hauth2 : is_authorized_user cfg (maybe_record_team_member cfg st c uid) uid = true :=
        is_auth_mono cfg (maybe_record_team_mono cfg st c uid) uid hauth
      have hst := stepCommandQuick_staff cfg st c uid i hauth2
      show lookupA (stepCommandQuick cfg st c uid i).debounceToken (c, p) = some i.abs
      rw [hst]
      exact cancel_all_token_mem _ c i.abs p hp
  exact ⟨htoken,
    run_fire_stale cfg (c, p) tok e.inst.abs evs (step cfg st e) htoken htok hevs jf⟩

/-- C4 witness: the staff pre-empt scenario; a PM timer armed at 79200 by a
customer, a staff message at 79320, and the old resumption at 79500 records
nothing. -/
theorem C4_staff_invalidates_amended_witness :
    ("PM" ∈ (["AM", "PM", "WE", "LUNCH", "CUTOFF"] : List String) ∧
      is_authorized_user exCfg (initState exCfg) 77 = true ∧
      (79200 : Nat) < 79320) ∧
    lookupA (step exCfg (initState exCfg)
        ⟨⟨1, ⟨22, 2, 0⟩, "2026-01-06", 79320⟩, .inbound "g" .group 77⟩).debounceToken
      ("g", "PM") = some 79320 ∧
    (step exCfg
        (run exCfg
          (step exCfg (initState exCfg)
            ⟨⟨1, ⟨22, 2, 0⟩, "2026-01-06", 79320⟩, .inbound "g" .group 77⟩) [])
        ⟨⟨1, ⟨22, 5, 0⟩, "2026-01-06", 79500⟩, .fire ("g", "PM") 79200⟩).dispatches =
      (run exCfg
        (step exCfg (initState exCfg)
          ⟨⟨1, ⟨22, 2, 0⟩, "2026-01-06", 79320⟩, .inbound "g" .group 77⟩) []).dispatches := by
  have h := C4_staff_invalidates_amended exCfg (initState exCfg) "g" 77
    ⟨⟨1, ⟨22, 2, 0⟩, "2026-01-06", 79320⟩, .inbound "g" .group 77⟩ [] "PM" 79200
    ⟨1, ⟨22, 5, 0⟩, "2026-01-06", 79500⟩ (by decide) (by decide)
    (Or.inl ⟨ChatType.group, rfl, by decide⟩) (by decide) (by decide)
  exact ⟨⟨by decide, by decide, by decide⟩, h.1, h.2.1⟩

/-- Customer message at 22:00 arming the PM notice, an authorized /time
style command at 22:02, and the armed resumption at 22:05. -/
def c4evs : List TEv :=
  [⟨⟨1, ⟨22, 0, 0⟩, "2026-01-06", 79200⟩, .inbound "g" .group 5⟩,
   ⟨⟨1, ⟨22, 2, 0⟩, "2026-01-06", 79320⟩, .commandOther "g" 77⟩,
   ⟨⟨1, ⟨22, 5, 0⟩, "2026-01-06", 79500⟩, .fire ("g", "PM") 79200⟩]

/-- C4 counterexample: the claim says any staff command immediately
invalidates every kind-key token of the conversation so that a pending
notification does not dispatch; identity 77 is staff and posts a command
handled by the time/coi/rules family at 79320, yet the token armed at
79200 stays current and the pending PM notice dispatches at 79500. -/
theorem C4_staff_invalidates_counterexample :
    is_authorized_user exCfg (initState exCfg) 77 = true ∧
    lookupA (run exCfg (initState exCfg) (c4evs.take 2)).debounceToken ("g", "PM") =
      some 79200 ∧
    (run exCfg (initState exCfg) c4evs).dispatches = [(("g", "PM"), 79500)] := by
  decide

/-- Configuration for the broadcast scenario: chat B is command-only. -/
def c7cfg : Config :=
  { aisTeamChatIds := []
    silentGroupIds := ["B"]
    preauth := []
    sendOk := fun _ _ => true
    sendOkBroadcast := fun _ _ => true }

/-- Ledger for the broadcast scenario: A and B active today, C yesterday. -/
def c7st : BotState :=
  { initState c7cfg with
    lastChatActivity := [("A", "2026-01-07"), ("B", "2026-01-07"), ("C", "2026-01-06")] }

/-- The broadcast minute on a Wednesday. -/
def c7i : Instant := ⟨2, ⟨16, 0, 0⟩, "2026-01-07", 200000⟩

/-- C7: at the broadcast minute on a weekday the last-call tick attempts
delivery exactly for the conversations whose recorded last-active date is
today and which are not in the command-only set; outside that minute it
attempts nothing; each attempted conversation carries its own transport
outcome; and the set of attempted conversations does not depend on the
transport outcomes, so one failure never blocks the rest. -/
theorem C7_last_call_membership (cfg : Config) (st : BotState) (i : Instant) :
    ((i.weekday < 5 ∧ i.tod.hour = LAST_CALL_TIME.hour ∧
        i.tod.minute = LAST_CALL_TIME.minute) →
      ∀ ch : String,
        (ch ∈ (lastCallTick cfg st i).map Prod.fst ↔
          (ch, i.dateStr) ∈ st.lastChatActivity ∧ ¬ ch ∈ cfg.silentGroupIds)) ∧
    (¬ (i.weekday < 5 ∧ i.tod.hour = LAST_CALL_TIME.hour ∧
        i.tod.minute = LAST_CALL_TIME.minute) →
      lastCallTick cfg st i = []) ∧
    (∀ ch : String, ch ∈ (lastCallTick cfg st i).map Prod.fst →
      (ch, cfg.sendOkBroadcast ch i.abs) ∈ lastCallTick cfg st i) ∧
    (∀ f g : String → Nat → Bool,
      (lastCallTick { cfg with sendOkBroadcast := f } st i).map Prod.fst =
        (lastCallTick { cfg with sendOkBroadcast := g } st i).map Prod.fst) := by
  refine ⟨?_, ?_, ?_, ?_⟩
  · intro hg ch
    have hgb : (decide (i.weekday < 5) && decide (i.tod.hour = LAST_CALL_TIME.hour) &&
        decide (i.tod.minute = LAST_CALL_TIME.minute)) = true := by
      simp [hg.1, hg.2.1, hg.2.2]
    unfold lastCallTick
    rw [if_pos hgb]
    simp only [List.map_map, List.mem_map, Function.comp, List.mem_filter,
      Bool.and_eq_true, decide_eq_true_eq, Bool.not_eq_true', decide_eq_false_iff_not]
    constructor
    · rintro ⟨a, ⟨hmem, hd, hs⟩, heq⟩
      subst heq
      refine ⟨?_, hs⟩
      have ha : a = (a.1, i.dateStr) := by
        rcases a with ⟨a1, a2⟩
        simp only at hd
        rw [hd]
      rw [← ha]
      exact hmem
    · rintro ⟨hmem, hs⟩
      exact ⟨(ch, i.dateStr), ⟨hmem, rfl, hs⟩, rfl⟩
  · intro hg
    have hgb : ¬ ((decide (i.weekday < 5) && decide (i.tod.hour = LAST_CALL_TIME.hour) &&
        decide (i.tod.minute = LAST_CALL_TIME.minute)) = true) := by
      simpa using hg
    unfold lastCallTick
    rw [if_neg hgb]
  · intro ch hch
    unfold lastCallTick at hch ⊢
    split_ifs at hch ⊢ with hgg
    · simp only [List.map_map, List.mem_map, Function.comp] at hch
      rcases hch with ⟨a, ha, heq⟩
      refine List.mem_map.mpr ⟨ch, ?_, rfl⟩
      exact List.mem_map.mpr ⟨a, ha, heq⟩
    · simp at hch
  · intro f g
    unfold lastCallTick
    split_ifs <;> simp [List.map_map, Function.comp]

/-- C7 witness: the membership scenario: A active today and not command
only, B active today but command only, C active yesterday; at the
broadcast minute only A is attempted. -/
theorem C7_last_call_membership_witness :
    ((2 : Nat) < 5 ∧ (16 : Nat) = LAST_CALL_TIME.hour ∧ (0 : Nat) = LAST_CALL_TIME.minute) ∧
    ("A" ∈ (lastCallTick c7cfg c7st c7i).map Prod.fst ↔
      ("A", "2026-01-07") ∈ c7st.lastChatActivity ∧ ¬ "A" ∈ c7cfg.silentGroupIds) ∧
    ("B" ∈ (lastCallTick c7cfg c7st c7i).map Prod.fst ↔
      ("B", "2026-01-07") ∈ c7st.lastChatActivity ∧ ¬ "B" ∈ c7cfg.silentGroupIds) ∧
    ("C" ∈ (lastCallTick c7cfg c7st c7i).map Prod.fst ↔
      ("C", "2026-01-07") ∈ c7st.lastChatActivity ∧ ¬ "C" ∈ c7cfg.silentGroupIds) ∧
    (lastCallTick c7cfg c7st c7i).map Prod.fst = ["A"] := by
  refine ⟨by decide, ?_, ?_, ?_, by decide⟩
  · exact (C7_last_call_membership c7cfg c7st c7i).1 (by decide) "A"
  · exact (C7_last_call_membership c7cfg c7st c7i).1 (by decide) "B"
  · exact (C7_last_call_membership c7cfg c7st c7i).1 (by decide) "C"

/-- C8: staff status is monotonic for the process lifetime: an identity
observed posting in a designated staff-source conversation passes every
later authorization check, and an authorized identity stays authorized
along any trace; the check takes no conversation argument, so it holds in
every conversation. -/
theorem C8_staff_monotonic (cfg : Config) (st : BotState) (c : String) (ct : ChatType)
    (uid : Int) (i : Instant) (evs : List TEv) (hc : c ∈ cfg.aisTeamChatIds) :
    is_authorized_user cfg (step cfg st ⟨i, .inbound c ct uid⟩) uid = true ∧
    (is_authorized_user cfg st uid = true →
      is_authorized_user cfg (run cfg st evs) uid = true) := by
  constructor
  · have hmem : uid ∈ (track_inbound cfg st c ct uid i).teamUserIds := by
      simp only [track_inbound]
      exact maybe_record_mem cfg _ c uid hc
    have hmem2 : uid ∈ (stepInbound cfg st c ct uid i).teamUserIds := by
      rw [stepInbound_team_eq]
      exact hmem
    simp [is_authorized_user, step, hmem2]
  · intro h
    exact run_auth_mono cfg evs st uid h

/-- Configuration with a designated staff-source chat t that is also
command-only, and no preloaded staff. -/
def exCfgTeam : Config :=
  { aisTeamChatIds := ["t"]
    silentGroupIds := ["t"]
    preauth := []
    sendOk := fun _ _ => true
    sendOkBroadcast := fun _ _ => true }

/-- C8 witness: identity 99, not preloaded, posts in staff-source chat t;
it then passes the check, and still passes after a later message in the
unrelated chat x. -/
theorem C8_staff_monotonic_witness :
    ("t" ∈ exCfgTeam.aisTeamChatIds) ∧
    is_authorized_user exCfgTeam
      (step exCfgTeam (initState exCfgTeam)
        ⟨⟨1, ⟨10, 0, 0⟩, "2026-01-06", 36000⟩, .inbound "t" .group 99⟩) 99 = true ∧
    is_authorized_user exCfgTeam
      (run exCfgTeam
        (step exCfgTeam (initState exCfgTeam)
          ⟨⟨1, ⟨10, 0, 0⟩, "2026-01-06", 36000⟩, .inbound "t" .group 99⟩)
        [⟨⟨1, ⟨10, 5, 0⟩, "2026-01-06", 36300⟩, .inbound "x" .group 99⟩]) 99 = true := by
  have h1 := (C8_staff_monotonic exCfgTeam (initState exCfgTeam) "t" .group 99
    ⟨1, ⟨10, 0, 0⟩, "2026-01-06", 36000⟩ [] (by decide)).1
  have h2 := (C8_staff_monotonic exCfgTeam
    (step exCfgTeam (initState exCfgTeam)
      ⟨⟨1, ⟨10, 0, 0⟩, "2026-01-06", 36000⟩, .inbound "t" .group 99⟩) "t" .group 99
    ⟨1, ⟨10, 0, 0⟩, "2026-01-06", 36000⟩
    [⟨⟨1, ⟨10, 5, 0⟩, "2026-01-06", 36300⟩, .inbound "x" .group 99⟩] (by decide)).2 h1
  exact ⟨by decide, h1, h2⟩

/-- C9: when the transport fails at fire time, the resumption records no
dispatch and no last-sent mark, it is not retried, the pending entry of the
key is cleared so the key is idle again, any later qualifying event can arm
a fresh token for the key, and across any further trace the arming yields
at most one delivery attempt. -/
theorem C9_failure_no_retry (cfg : Config) (st : BotState) (k : Key) (tok : Nat) (i : Instant)
    (evs : List TEv)
    (hcr : (⟨k, tok⟩ : Task) ∈ st.createdTasks)
    (hnf : ¬ (⟨k, tok⟩ : Task) ∈ st.fired)
    (htime : i.abs = tok + FLOOD_BUFFER_SECONDS)
    (hfail : ∀ q : String, cfg.sendOk (k.1, q) i.abs = false)
    (hatt : attemptsFor st k tok = []) :
    lookupA (step cfg st ⟨i, .fire k tok⟩).pendingTask k = none ∧
    (step cfg st ⟨i, .fire k tok⟩).dispatches = st.dispatches ∧
    (step cfg st ⟨i, .fire k tok⟩).chatLastResponse = st.chatLastResponse ∧
    (step cfg st ⟨i, .fire k tok⟩).closedSentAM = st.closedSentAM ∧
    (step cfg st ⟨i, .fire k tok⟩).closedSentPM = st.closedSentPM ∧
    (∀ i2 : Instant,
      lookupA (schedule_buffered (step cfg st ⟨i, .fire k tok⟩) k.1 k.2 i2).debounceToken k =
        some i2.abs) ∧
    (attemptsFor (run cfg (step cfg st ⟨i, .fire k tok⟩) evs) k tok).length ≤ 1 := by
  have hstep : step cfg st ⟨i, .fire k tok⟩ = stepFire cfg st k tok i := rfl
  have hf := stepFire_fail cfg st k tok i hfail
  refine ⟨?_, ?_, ?_, ?_, ?_, ?_, ?_⟩
  · rw [hstep]
    exact stepFire_pending cfg st k tok i hcr hnf (Or.inr htime)
  · rw [hstep]
    exact hf.1
  · rw [hstep]
    exact hf.2.1
  · rw [hstep]
    exact hf.2.2.1
  · rw [hstep]
    exact hf.2.2.2
  · intro i2
    rw [schedule_buffered_token]
    simp
  · apply run_attempts_once cfg k tok evs
    · rcases step_attemptsFor cfg st ⟨i, .fire k tok⟩ k tok with h | ⟨_, hfk, _⟩
      · right
        rw [h, hatt]
      · left
        exact hfk
    · rcases step_attemptsFor cfg st ⟨i, .fire k tok⟩ k tok with h | ⟨_, _, hgrow⟩
      · rw [h, hatt]
        simp
      · rw [hgrow, hatt]
        simp

/-- Configuration whose transport always fails. -/
def exCfgFail : Config :=
  { aisTeamChatIds := []
    silentGroupIds := []
    preauth := []
    sendOk := fun _ _ => false
    sendOkBroadcast := fun _ _ => false }

/-- State with a PM timer armed at 79200 by a customer message. -/
def c9st : BotState :=
  run exCfgFail (initState exCfgFail)
    [⟨⟨1, ⟨22, 0, 0⟩, "2026-01-06", 79200⟩, .inbound "g" .group 5⟩]

/-- The punctual resumption of that timer. -/
def c9fire : TEv := ⟨⟨1, ⟨22, 5, 0⟩, "2026-01-06", 79500⟩, .fire ("g", "PM") 79200⟩

/-- C9 witness: the armed timer fires at 79500, the transport fails, the
key goes idle, nothing is recorded, and the arming yields at most one
attempt. -/
theorem C9_failure_no_retry_witness :
    ((⟨("g", "PM"), 79200⟩ : Task) ∈ c9st.createdTasks ∧
      ¬ (⟨("g", "PM"), 79200⟩ : Task) ∈ c9st.fired ∧
      (79500 : Nat) = 79200 + FLOOD_BUFFER_SECONDS ∧
      attemptsFor c9st ("g", "PM") 79200 = []) ∧
    lookupA (step exCfgFail c9st c9fire).pendingTask ("g", "PM") = none ∧
    (step exCfgFail c9st c9fire).dispatches = c9st.dispatches ∧
    lookupA (schedule_buffered (step exCfgFail c9st c9fire) "g" "PM"
        ⟨2, ⟨8, 30, 0⟩, "2026-01-07", 117000⟩).debounceToken ("g", "PM") = some 117000 ∧
    (attemptsFor (run exCfgFail (step exCfgFail c9st c9fire) []) ("g", "PM") 79200).length ≤ 1 := by
  have h := C9_failure_no_retry exCfgFail c9st ("g", "PM") 79200
    ⟨1, ⟨22, 5, 0⟩, "2026-01-06", 79500⟩ [] (by decide) (by decide) (by decide)
    (fun q => rfl) (by decide)
  exact ⟨⟨by decide, by decide, by decide, by decide⟩, h.1, h.2.1,
    h.2.2.2.2.2.1 ⟨2, ⟨8, 30, 0⟩, "2026-01-07", 117000⟩, h.2.2.2.2.2.2⟩

/-- C10: a message in a direct chat never arms a timer and never causes a
dispatch: the handler leaves the created-task list and the dispatch log
unchanged, and along any trace with no group-typed message for the chat,
the chat never enters the group registry and never receives any canned
notice. -/
theorem C10_direct_chats_silent (cfg : Config) (st : BotState) (c : String) (ct : ChatType)
    (uid : Int) (i : Instant) (evs : List TEv)
    (hct : isGroupType ct = false)
    (hkn : ¬ c ∈ st.knownGroupChats)
    (hevs : ∀ e ∈ evs, noGroupInbound c e = true) :
    (stepInbound cfg st c ct uid i).createdTasks = st.createdTasks ∧
    (stepInbound cfg st c ct uid i).dispatches = st.dispatches ∧
    ¬ c ∈ (run cfg st evs).knownGroupChats ∧
    dispatchesFor (run cfg st evs) c = dispatchesFor st c := by
  rcases stepInbound_private cfg st c ct uid i hct with ⟨h1, h2⟩
  rcases run_no_group_no_dispatch cfg c evs st hkn hevs with ⟨h3, h4⟩
  exact ⟨h1, h2, h3, h4⟩

/-- A direct-chat customer message late on a Tuesday and a later stray
resumption for that chat. -/
def c10evs : List TEv :=
  [⟨⟨1, ⟨22, 10, 0⟩, "2026-01-06", 79800⟩, .inbound "d" .direct 5⟩,
   ⟨⟨1, ⟨22, 20, 0⟩, "2026-01-06", 80400⟩, .fire ("d", "PM") 80100⟩]

/-- C10 witness: the direct chat d receives a qualifying after-hours
message yet arms nothing, is never registered, and never receives a
dispatch along the trace. -/
theorem C10_direct_chats_silent_witness :
    (isGroupType ChatType.direct = false ∧
      ¬ "d" ∈ (initState exCfg).knownGroupChats ∧
      (∀ e ∈ c10evs, noGroupInbound "d" e = true)) ∧
    (stepInbound exCfg (initState exCfg) "d" ChatType.direct 5
        ⟨1, ⟨22, 10, 0⟩, "2026-01-06", 79800⟩).createdTasks =
      (initState exCfg).createdTasks ∧
    ¬ "d" ∈ (run exCfg (initState exCfg) c10evs).knownGroupChats ∧
    dispatchesFor (run exCfg (initState exCfg) c10evs) "d" =
      dispatchesFor (initState exCfg) "d" := by
  have h := C10_direct_chats_silent exCfg (initState exCfg) "d" ChatType.direct 5
    ⟨1, ⟨22, 10, 0⟩, "2026-01-06", 79800⟩ c10evs (by decide) (by decide) (by decide)
  exact ⟨⟨by decide, by decide, by decide⟩, h.1, h.2.2.1, h.2.2.2⟩

/-- C1: debounce correctness: when the qualifying inbound events of a
conversation and kind form a burst, consecutive events within the flood
buffer of each other, every dispatch of that key along the trace is
stamped exactly one flood buffer after the last qualifying event, and at
most one such dispatch occurs. -/
theorem C1_debounce_correctness (cfg : Config) (c P : String) (arms : List (Instant × Int))
    (evs : List TEv) (t0 tN : Nat)
    (hcs : ¬ c ∈ cfg.silentGroupIds) (hca : ¬ c ∈ cfg.aisTeamChatIds)
    (hb : burstOk cfg c P arms evs = true)
    (ht : timesOk t0 evs = true)
    (hchain : armChainOk none arms = true)
    (hlast : lastT none arms = some tN) :
    (∀ d ∈ (run cfg (initState cfg) evs).dispatches,
        d.1 = (c, P) → d.2 = tN + FLOOD_BUFFER_SECONDS) ∧
    ((run cfg (initState cfg) evs).dispatches.filter
        (fun d => decide (d.1 = (c, P)))).length ≤ 1 := by
  have hmain := burst_master cfg c P tN hcs hca evs arms (initState cfg) t0 none hb ht hchain
    (fun v hv => by cases hv) hlast rfl rfl rfl
    (by intro d hd; simp [initState] at hd)
  refine ⟨hmain, ?_⟩
  have hpd := run_dispatch_distinct cfg evs (initState cfg) t0 ht
    (by intro d hd; simp [initState] at hd) (by simp [initState])
  exact filter_singleton_of_same _ c P _ hmain hpd

/-- Two customer messages 100 seconds apart arming the PM notice, the stale
resumption of the first arming, and the punctual resumption of the second. -/
def c1evs : List TEv :=
  [⟨⟨1, ⟨21, 30, 0⟩, "2026-01-06", 77400⟩, .inbound "g" .group 5⟩,
   ⟨⟨1, ⟨21, 31, 40⟩, "2026-01-06", 77500⟩, .inbound "g" .group 5⟩,
   ⟨⟨1, ⟨21, 35, 0⟩, "2026-01-06", 77700⟩, .fire ("g", "PM") 77400⟩,
   ⟨⟨1, ⟨21, 36, 40⟩, "2026-01-06", 77800⟩, .fire ("g", "PM") 77500⟩]

/-- The two arms of that burst. -/
def c1arms : List (Instant × Int) :=
  [(⟨1, ⟨21, 30, 0⟩, "2026-01-06", 77400⟩, 5),
   (⟨1, ⟨21, 31, 40⟩, "2026-01-06", 77500⟩, 5)]

/-- C1 witness: the two-message burst produces exactly one dispatch, at
77800, one flood buffer after the last qualifying event. -/
theorem C1_debounce_correctness_witness :
    (¬ "g" ∈ exCfg.silentGroupIds ∧ ¬ "g" ∈ exCfg.aisTeamChatIds ∧
      burstOk exCfg "g" "PM" c1arms c1evs = true ∧
      timesOk 0 c1evs = true ∧
      armChainOk none c1arms = true ∧
      lastT none c1arms = some 77500) ∧
    ((∀ d ∈ (run exCfg (initState exCfg) c1evs).dispatches,
        d.1 = ("g", "PM") → d.2 = 77500 + FLOOD_BUFFER_SECONDS) ∧
      ((run exCfg (initState exCfg) c1evs).dispatches.filter
          (fun d => decide (d.1 = ("g", "PM")))).length ≤ 1) ∧
    (run exCfg (initState exCfg) c1evs).dispatches = [(("g", "PM"), 77800)] := by
  refine ⟨⟨by decide, by decide, by decide, by decide, by decide, by decide⟩, ?_, by decide⟩
  exact C1_debounce_correctness exCfg "g" "PM" c1arms c1evs 0 77500 (by decide) (by decide)
    (by decide) (by decide) (by decide) (by decide)

end AisGenie
